import Mathlib

/-!
# Verification of the EPG manager's ingestion, matching and grab pipeline

Shallow embedding of the core of the `epg-manager` repository:

* the metadata title normalizer (`normalizeTitle`, `src/services/metadata.ts`),
* the channel-name cleaner and XML escaping (`cleanName`, `getText`,
  `src/services/epg.ts`),
* the streaming XMLTV ingestor's event handlers and per-source replace
  semantics (`processEpg`, `src/services/epg.ts`),
* the channel ↔ guide-channel matching pass of `processEpg` and the
  pre-match pass `applyPreMatches` (`src/services/playlist.ts`),
* the grab orchestrator's per-channel candidate loop, site breaker and
  channel auto-disable tracker (`src/services/grabber.ts`).

Strings are modelled as `List Char`.  JavaScript regular-expression
`replace` calls are modelled by explicit left-to-right scanners with
word-boundary (`\b`) checks using the JS definition of a word character
(`[A-Za-z0-9_]`).  Unicode lowercasing is modelled on the ASCII range and
characters outside ASCII are treated as `\p{L}`/`\p{N}` (every concrete
input used in a theorem below is ASCII, where the model is exact).
Wall-clock durations recorded in grab logs are passed in as an abstract
parameter; external collaborators (the grabber command, the Fuse.js fuzzy
index, number formatting of fuzzy scores) are parameters of the embedded
functions.
-/

/-- Strings of the embedded program, as lists of characters. -/
abbrev Str := List Char

/-- JS whitespace (`\s`) restricted to its ASCII part: space, tab, LF, VT, FF, CR. -/
def jsWs (c : Char) : Bool :=
  c = ' ' || c = '\t' || c = '\n' || c = '\x0b' || c = '\x0c' || c = '\r'

/-- A JS word character for `\b` boundaries: `[A-Za-z0-9_]`. -/
def jsWord (c : Char) : Bool :=
  (('a' ≤ c && c ≤ 'z') || ('A' ≤ c && c ≤ 'Z') || ('0' ≤ c && c ≤ '9') || c = '_')

/-- ASCII decimal digit. -/
def isDigitC (c : Char) : Bool := '0' ≤ c && c ≤ '9'

/-- ASCII lowercasing, modelling `String.prototype.toLowerCase` on the ASCII range. -/
def lowerChar (c : Char) : Char :=
  match c with
  | 'A' => 'a' | 'B' => 'b' | 'C' => 'c' | 'D' => 'd' | 'E' => 'e' | 'F' => 'f'
  | 'G' => 'g' | 'H' => 'h' | 'I' => 'i' | 'J' => 'j' | 'K' => 'k' | 'L' => 'l'
  | 'M' => 'm' | 'N' => 'n' | 'O' => 'o' | 'P' => 'p' | 'Q' => 'q' | 'R' => 'r'
  | 'S' => 's' | 'T' => 't' | 'U' => 'u' | 'V' => 'v' | 'W' => 'w' | 'X' => 'x'
  | 'Y' => 'y' | 'Z' => 'z' | c => c

/-- Lowercase a whole string. -/
def lowerStr (l : Str) : Str := l.map lowerChar

/-- Left `\b` boundary holds before a word character when the previous
character (if any) is not a word character. -/
def atLeftBoundary (prev : Option Char) : Bool :=
  match prev with
  | none => true
  | some p => !jsWord p

/-- Right `\b` boundary after a word character: end of input or a non-word
character follows. -/
def atRightBoundary (l : Str) : Bool :=
  match l with
  | [] => true
  | c :: _ => !jsWord c

/-- Does the literal `tok` occur at the head of `l`? -/
def litAt (tok l : Str) : Bool :=
  match tok, l with
  | [], _ => true
  | _ :: _, [] => false
  | t :: ts, c :: cs => t = c && litAt ts cs

/-- Case-insensitive (ASCII) variant of `litAt`; `tok` is given lowercased. -/
def litAtCI (tok l : Str) : Bool :=
  match tok, l with
  | [], _ => true
  | _ :: _, [] => false
  | t :: ts, c :: cs => t = lowerChar c && litAtCI ts cs

/-- Substring containment, modelling `String.prototype.includes`. -/
def strContains (hay needle : Str) : Bool :=
  match hay with
  | [] => needle.isEmpty
  | _ :: cs => litAt needle hay || strContains cs needle

/-- Generic model of `String.prototype.replace(re, '')` for the regexes used
by the program: `try_ prev l` reports the length of a match of the regex at
the head of `l` (given the previous character `prev` for `\b` checks), and
the scanner deletes every such leftmost match, resuming after the match as
the JS global-flag scan does.  `skip` counts characters of a found match
still to be dropped. -/
def scanGo (try_ : Option Char → Str → Option Nat) :
    Nat → Option Char → Str → Str
  | _, _, [] => []
  | Nat.succ n, _, c :: cs => scanGo try_ n (some c) cs
  | 0, prev, c :: cs =>
    match try_ prev (c :: cs) with
    | some k => scanGo try_ (k - 1) (some c) cs
    | none => c :: scanGo try_ 0 (some c) cs

/-- Run a replace-with-empty scan over a whole string. -/
def scanStr (try_ : Option Char → Str → Option Nat) (l : Str) : Str :=
  scanGo try_ 0 none l

/-! ## The enrichment title normalizer (`normalizeTitle`, metadata service)

Each `replace(..., '')` of the source is one scanner instance.  The input
of every scanner below is already lowercased, exactly as in the source. -/

/-- One plain alternative of an alternation: the literal must match and be
followed by a `\b` boundary. -/
def tryTok (tok l : Str) : Option Nat :=
  if litAt tok l && atRightBoundary (l.drop tok.length) then some tok.length else none

/-- The `h\.?264` alternative: greedy optional dot. -/
def tryH264 (l : Str) : Option Nat :=
  if litAt "h.264".toList l && atRightBoundary (l.drop 5) then some 5
  else if litAt "h264".toList l && atRightBoundary (l.drop 4) then some 4
  else none

/-- Match of `\b(hd|sd|fhd|uhd|4k|1080p|720p|480p|hevc|h\.?264|x264|x265)\b`
at the head, alternatives tried in source order. -/
def tryQuality (prev : Option Char) (l : Str) : Option Nat :=
  if !atLeftBoundary prev then none
  else
    tryTok "hd".toList l <|> tryTok "sd".toList l <|> tryTok "fhd".toList l <|>
    tryTok "uhd".toList l <|> tryTok "4k".toList l <|> tryTok "1080p".toList l <|>
    tryTok "720p".toList l <|> tryTok "480p".toList l <|> tryTok "hevc".toList l <|>
    tryH264 l <|> tryTok "x264".toList l <|> tryTok "x265".toList l

/-- Number of leading ASCII digits. -/
def digitsAt (l : Str) : Nat := (l.takeWhile isDigitC).length

/-- Trailing `\d{1,2}\b`: greedy two digits, backtracking to one. -/
def tryTailDigits (r : Str) : Option Nat :=
  if 2 ≤ digitsAt r && atRightBoundary (r.drop 2) then some 2
  else if 1 ≤ digitsAt r && atRightBoundary (r.drop 1) then some 1
  else none

/-- `\d{1,2}[ex]\d{1,2}\b` at the head: `k` leading digits (greedy 2 then 1),
then `e` or `x`, then the trailing digits. -/
def tryMarkerLead (k : Nat) (l : Str) : Option Nat :=
  if k ≤ digitsAt l && ((l.drop k).head? = some 'e' || (l.drop k).head? = some 'x') then
    (tryTailDigits (l.drop (k + 1))).map (fun m => k + 1 + m)
  else none

/-- Core of the episode marker without the optional `s`. -/
def tryMarkerCore (l : Str) : Option Nat :=
  tryMarkerLead 2 l <|> tryMarkerLead 1 l

/-- Match of `\bs?\d{1,2}[ex]\d{1,2}\b` at the head (input is lowercased, so
only `s` can occur).  The greedy `s?` branch is tried first; without the `s`
the pattern would have to start with a digit at the `s`, which fails. -/
def tryMarker (prev : Option Char) (l : Str) : Option Nat :=
  if !atLeftBoundary prev then none
  else
    match l with
    | 's' :: rest => (tryMarkerCore rest).map (· + 1)
    | _ => tryMarkerCore l

/-- Match of `\b<word>\s*\d+\b` at the head, for `season` and `episode`. -/
def tryWordNum (word : Str) (prev : Option Char) (l : Str) : Option Nat :=
  if !atLeftBoundary prev then none
  else if litAt word l then
    let r := l.drop word.length
    let w := (r.takeWhile jsWs).length
    let d := digitsAt (r.drop w)
    if 1 ≤ d && atRightBoundary ((r.drop w).drop d) then some (word.length + w + d)
    else none
  else none

/-- Match of `\(\d{4}\)` at the head (no boundary conditions). -/
def tryYear (_prev : Option Char) (l : Str) : Option Nat :=
  match l with
  | '(' :: d1 :: d2 :: d3 :: d4 :: ')' :: _ =>
    if isDigitC d1 && isDigitC d2 && isDigitC d3 && isDigitC d4 then some 6 else none
  | _ => none

/-- `.replace(/\b(hd|sd|fhd|uhd|4k|1080p|720p|480p|hevc|h\.?264|x264|x265)\b/gi, '')`. -/
def removeQuality (l : Str) : Str := scanStr tryQuality l

/-- `.replace(/\bs?\d{1,2}[ex]\d{1,2}\b/gi, '')`. -/
def removeMarker (l : Str) : Str := scanStr tryMarker l

/-- `.replace(/\bseason\s*\d+\b/gi, '')`. -/
def removeSeason (l : Str) : Str := scanStr (tryWordNum "season".toList) l

/-- `.replace(/\bepisode\s*\d+\b/gi, '')`. -/
def removeEpisodeNum (l : Str) : Str := scanStr (tryWordNum "episode".toList) l

/-- `.replace(/\(\d{4}\)/g, '')`. -/
def removeYears (l : Str) : Str := scanStr tryYear l

/-- Characters kept by `[^\p{L}\p{N}\s]` → space: ASCII letters and digits,
whitespace, and (as a modelling choice) everything outside ASCII. -/
def isTitleKeep (c : Char) : Bool :=
  ('a' ≤ c && c ≤ 'z') || ('A' ≤ c && c ≤ 'Z') || isDigitC c || jsWs c || decide (128 ≤ c.toNat)

/-- `.replace(/[^\p{L}\p{N}\s]/gu, ' ')`. -/
def punctToSpace (l : Str) : Str := l.map (fun c => if isTitleKeep c then c else ' ')

/-- Helper of `collapseWs`: `prevWs` records whether the previous character
was whitespace (already emitted as a single space). -/
def collapseGo (prevWs : Bool) : Str → Str
  | [] => []
  | c :: cs =>
    if jsWs c then
      if prevWs then collapseGo true cs else ' ' :: collapseGo true cs
    else c :: collapseGo false cs

/-- `.replace(/\s+/g, ' ')`: every maximal whitespace run becomes one space. -/
def collapseWs (l : Str) : Str := collapseGo false l

/-- `String.prototype.trim` (whitespace modelled by `jsWs`). -/
def jsTrim (l : Str) : Str := ((l.dropWhile jsWs).reverse.dropWhile jsWs).reverse

/-- The colon rule of `normalizeTitle`: if the title contains a colon and the
trimmed first segment is longer than 2 characters it becomes the show name. -/
def colonShowName (title : Str) : Str :=
  if title.contains ':' then
    let firstPart := jsTrim (title.takeWhile (fun c => c ≠ ':'))
    if 2 < firstPart.length then firstPart else title
  else title

/-- `normalizeTitle` of `src/services/metadata.ts`, stage for stage. -/
def normalizeTitle (title : Str) : Str :=
  jsTrim (collapseWs (punctToSpace (removeYears (removeEpisodeNum (removeSeason
    (removeMarker (removeQuality (lowerStr (colonShowName title)))))))))

/-! ## The channel name cleaner (`cleanName`) and XML escaper (`getText`) of the EPG service -/

/-- Match of `\(.*\)` (or `\[.*\]`) at the head: `.` does not cross a line
break, and the greedy `.*` backtracks to the last closing delimiter of the
current line segment. -/
def tryBracketed (openC closeC : Char) (_prev : Option Char) (l : Str) : Option Nat :=
  match l with
  | c :: rest =>
    if c = openC then
      let seg := rest.takeWhile (fun x => x ≠ '\n')
      match seg.reverse.findIdx? (fun x => x = closeC) with
      | some i => some (seg.length - i + 1)
      | none => none
    else none
  | [] => none

/-- Match of `\b\d{3,4}p\b` at the head (case-sensitive `p`). -/
def tryResP (prev : Option Char) (l : Str) : Option Nat :=
  if !atLeftBoundary prev then none
  else if digitsAt l = 4 && (l.drop 4).head? = some 'p' && atRightBoundary (l.drop 5) then some 5
  else if digitsAt l = 3 && (l.drop 3).head? = some 'p' && atRightBoundary (l.drop 4) then some 4
  else none

/-- Case-insensitive alternative with a trailing `\b` boundary. -/
def tryTokCI (tok l : Str) : Option Nat :=
  if litAtCI tok l && atRightBoundary (l.drop tok.length) then some tok.length else none

/-- Match of `\b(HD|FHD|SD|4K|HEVC|UHD)\b` (case-insensitive), source order. -/
def tryQualityCI (prev : Option Char) (l : Str) : Option Nat :=
  if !atLeftBoundary prev then none
  else
    tryTokCI "hd".toList l <|> tryTokCI "fhd".toList l <|> tryTokCI "sd".toList l <|>
    tryTokCI "4k".toList l <|> tryTokCI "hevc".toList l <|> tryTokCI "uhd".toList l

/-- One alternative of the country-prefix regex: the (case-insensitive)
token followed directly by a colon, no trailing `\b`. -/
def tryTokColon (tok l : Str) : Option Nat :=
  if litAtCI tok l && (l.drop tok.length).head? = some ':' then some (tok.length + 1) else none

/-- Match of `\b(US|UK|CA|AU|ES|MX|FR|DE|IT|FRANCE|USA):` (case-insensitive),
alternatives tried in source order. -/
def tryCountry (prev : Option Char) (l : Str) : Option Nat :=
  if !atLeftBoundary prev then none
  else
    tryTokColon "us".toList l <|> tryTokColon "uk".toList l <|> tryTokColon "ca".toList l <|>
    tryTokColon "au".toList l <|> tryTokColon "es".toList l <|> tryTokColon "mx".toList l <|>
    tryTokColon "fr".toList l <|> tryTokColon "de".toList l <|> tryTokColon "it".toList l <|>
    tryTokColon "france".toList l <|> tryTokColon "usa".toList l

/-- Characters kept by `.replace(/[^a-zA-Z0-9\s]/g, '')` (the rest is deleted). -/
def isCleanKeep (c : Char) : Bool :=
  ('a' ≤ c && c ≤ 'z') || ('A' ≤ c && c ≤ 'Z') || isDigitC c || jsWs c

/-- `cleanName` of `src/services/epg.ts`, stage for stage.  Unlike
`normalizeTitle` it does not lowercase; callers lowercase afterwards. -/
def cleanName (name : Str) : Str :=
  jsTrim (collapseWs ((scanStr tryCountry (scanStr tryQualityCI (scanStr tryResP
    (scanStr (tryBracketed '[' ']') (scanStr (tryBracketed '(' ')') name))))).filter isCleanKeep))

/-- Replace every occurrence of `target` by the expansion `rep`. -/
def escapeOne (target : Char) (rep : Str) (l : Str) : Str :=
  l.flatMap (fun c => if c = target then rep else [c])

/-- `getText` of `src/services/epg.ts`: `undefined`/`null` become the empty
string, otherwise the five XML escapes are applied in source order. -/
def getText (val : Option Str) : Str :=
  match val with
  | none => []
  | some s =>
    escapeOne (Char.ofNat 39) "&apos;".toList
      (escapeOne '"' "&quot;".toList
        (escapeOne '>' "&gt;".toList
          (escapeOne '<' "&lt;".toList
            (escapeOne '&' "&amp;".toList s))))

/-! ## The streaming XMLTV ingestor (`processEpg`, parse and persist phase)

The `sax` stream parser is an external collaborator; the embedding starts
from its event stream (open tag with attributes, text, close tag) and models
the program's `onopentag`/`ontext`/`onclosetag` handlers and the database
effect of the batched inserts.  Batch flushing groups consecutive rows into
multi-row inserts; `ingestSource` models the success path, whose final table
contents are the row lists in event order, and `processEpgSource` models the
flush schedule itself together with its failure mode: `@libsql/client`
rejects a JS `undefined` bound argument (a missing required attribute) with
a `TypeError`, so the poisoned flush persists nothing and the per-source
`catch` aborts the rest of the source. -/

/-- Attributes read by the handlers; absent attributes are `none`. -/
structure XmlAttrs where
  id : Option Str := none
  channel : Option Str := none
  start : Option Str := none
  stop : Option Str := none
  src : Option Str := none
  system : Option Str := none
deriving DecidableEq

/-- Events of the sax stream. -/
inductive XmlEvent where
  | openTag (name : Str) (attrs : XmlAttrs)
  | text (t : Str)
  | closeTag (name : Str)
deriving DecidableEq

/-- The partial channel record opened by `<channel>`. -/
structure ChanRec where
  id : Option Str
  source : Str
  displayName : Str
  icon : Option Str
deriving DecidableEq

/-- The partial programme record opened by `<programme>`. -/
structure ProgRec where
  channel : Option Str
  start : Option Str
  stop : Option Str
  source : Str
  title : Str
  desc : Str
  subTitle : Str
  episodeNum : Str
  category : Str
  rating : Str
  icon : Str
deriving DecidableEq

/-- A row of `epg_channels`. -/
structure EpgChannelRow where
  id : Option Str
  source : Str
  displayName : Str
  icon : Option Str
deriving DecidableEq

/-- A row of `epg_programs` (the columns written by the ingestor). -/
structure EpgProgramRow where
  channelId : Option Str
  source : Str
  start : Option Str
  stop : Option Str
  title : Str
  desc : Str
  subTitle : Str
  episodeNum : Str
  category : Str
  rating : Str
  icon : Str
deriving DecidableEq

/-- Parser-handler state of one `processEpg` source iteration. -/
structure IngestSt where
  currentTag : Str
  currentChannel : Option ChanRec
  currentProgram : Option ProgRec
  channelRows : List EpgChannelRow
  programRows : List EpgProgramRow
  counts : List (Option Str × Nat)
deriving DecidableEq

/-- Initial handler state. -/
def initIngestSt : IngestSt :=
  { currentTag := [], currentChannel := none, currentProgram := none,
    channelRows := [], programRows := [], counts := [] }

/-- `programCounts[chId] = (programCounts[chId] || 0) + 1`. -/
def bumpCount (k : Option Str) : List (Option Str × Nat) → List (Option Str × Nat)
  | [] => [(k, 1)]
  | (k', n) :: rest => if k' = k then (k', n + 1) :: rest else (k', n) :: bumpCount k rest

/-- The `onopentag` handler. -/
def onOpenTag (url : Str) (st : IngestSt) (name : Str) (attrs : XmlAttrs) : IngestSt :=
  let st := { st with currentTag := name }
  if name = "channel".toList then
    let ch : ChanRec := { id := attrs.id, source := url, displayName := [], icon := some [] }
    { st with currentChannel := some ch }
  else if name = "programme".toList then
    let p : ProgRec :=
      { channel := attrs.channel, start := attrs.start, stop := attrs.stop,
        source := url, title := [], desc := [], subTitle := [],
        episodeNum := [], category := [], rating := [], icon := [] }
    { st with currentProgram := some p }
  else if name = "icon".toList then
    match st.currentChannel with
    | some ch => { st with currentChannel := some { ch with icon := attrs.src } }
    | none =>
      match st.currentProgram with
      | some p => { st with currentProgram := some { p with icon := (attrs.src).getD [] } }
      | none => st
  else st

/-- The `ontext` handler. -/
def onText (st : IngestSt) (t : Str) : IngestSt :=
  if st.currentTag = [] then st
  else if st.currentChannel.isSome && st.currentTag = "display-name".toList then
    match st.currentChannel with
    | some ch => { st with currentChannel := some { ch with displayName := t } }
    | none => st
  else
    match st.currentProgram with
    | some p =>
      if st.currentTag = "title".toList then
        { st with currentProgram := some { p with title := t } }
      else if st.currentTag = "desc".toList then
        { st with currentProgram := some { p with desc := t } }
      else if st.currentTag = "sub-title".toList then
        { st with currentProgram := some { p with subTitle := t } }
      else if st.currentTag = "episode-num".toList then
        { st with currentProgram := some { p with episodeNum := t } }
      else if st.currentTag = "category".toList then
        { st with currentProgram := some { p with category :=
            if p.category = [] then t else p.category ++ ", ".toList ++ t } }
      else if st.currentTag = "value".toList && p.rating = [] then
        { st with currentProgram := some { p with rating := t } }
      else st
    | none => st

/-- The `onclosetag` handler: finalized records are appended to the batches
and counted; no attribute validation takes place. -/
def onCloseTag (st : IngestSt) (name : Str) : IngestSt :=
  if name = "channel".toList then
    match st.currentChannel with
    | some ch =>
      { st with
        channelRows := st.channelRows ++
          [{ id := ch.id, source := ch.source, displayName := ch.displayName, icon := ch.icon }],
        currentChannel := none }
    | none => st
  else if name = "programme".toList then
    match st.currentProgram with
    | some p =>
      { st with
        programRows := st.programRows ++
          [{ channelId := p.channel, source := p.source, start := p.start, stop := p.stop,
             title := p.title, desc := p.desc, subTitle := p.subTitle,
             episodeNum := p.episodeNum, category := p.category, rating := p.rating,
             icon := p.icon }],
        counts := bumpCount p.channel st.counts,
        currentProgram := none }
    | none => st
  else st

/-- Dispatch one sax event. -/
def ingestStep (url : Str) (st : IngestSt) (e : XmlEvent) : IngestSt :=
  match e with
  | XmlEvent.openTag name attrs => onOpenTag url st name attrs
  | XmlEvent.text t => onText st t
  | XmlEvent.closeTag name => onCloseTag st name

/-- Run the handlers over a whole event stream. -/
def runIngest (url : Str) (events : List XmlEvent) : IngestSt :=
  events.foldl (ingestStep url) initIngestSt

/-- The guide tables touched by `processEpg`. -/
structure EpgDb where
  channels : List EpgChannelRow
  programs : List EpgProgramRow
deriving DecidableEq

/-- `INSERT OR IGNORE INTO epg_channels`: the primary key is `(id, source)`. -/
def insertChannelOrIgnore (tbl : List EpgChannelRow) (r : EpgChannelRow) : List EpgChannelRow :=
  if tbl.any (fun r' => r'.id = r.id && r'.source = r.source) then tbl else tbl ++ [r]

/-- One source iteration of `processEpg` along the success path, on which
every batched row binds: delete all prior rows of the source, then parse the
stream and commit the batches.  `processEpgSource` below adds the fallible
flush and agrees with this definition on such feeds. -/
def ingestSource (db : EpgDb) (url : Str) (events : List XmlEvent) :
    EpgDb × List (Option Str × Nat) :=
  let db : EpgDb := { channels := db.channels.filter (fun r => r.source ≠ url),
                      programs := db.programs.filter (fun r => r.source ≠ url) }
  let st := runIngest url events
  ({ channels := st.channelRows.foldl insertChannelOrIgnore db.channels,
     programs := db.programs ++ st.programRows },
   st.counts)

/-- `counts[chId] || 0` as read by the grab orchestrator. -/
def countFor (counts : List (Option Str × Nat)) (chId : Str) : Nat :=
  match counts.find? (fun kv => kv.fst = some chId) with
  | some kv => kv.snd
  | none => 0

/-- A channel row binds without error iff none of its bound values is the
JS `undefined`: the `id` attribute was present and, if an `<icon>` element
occurred inside the channel, its `src` attribute was present
(`currentChannel.icon = node.attributes.src` is unguarded). -/
def chanRowOk (r : EpgChannelRow) : Bool := r.id.isSome && r.icon.isSome

/-- A programme row binds without error iff the `channel`, `start` and
`stop` attributes were present; every other column is initialized to a
string by the handlers. -/
def progRowOk (r : EpgProgramRow) : Bool :=
  r.channelId.isSome && r.start.isSome && r.stop.isSome

/-- `commitBatch('channels', batch)`: the client converts the arguments
before running the statement, and a JS `undefined` argument raises
`TypeError`, skipping the statement and the `COMMIT`, so a batch holding a
row with a missing bound attribute persists nothing (`none`); otherwise the
multi-row `INSERT OR IGNORE` inserts the rows in order.  An empty batch is
a no-op, as in the source (`if (batch.length === 0) return`). -/
def commitChannels (tbl : List EpgChannelRow) (batch : List EpgChannelRow) :
    Option (List EpgChannelRow) :=
  if batch.all chanRowOk then some (batch.foldl insertChannelOrIgnore tbl) else none

/-- `commitBatch('programs', batch)`, with the same failure mode. -/
def commitPrograms (tbl : List EpgProgramRow) (batch : List EpgProgramRow) :
    Option (List EpgProgramRow) :=
  if batch.all progRowOk then some (tbl ++ batch) else none

/-- State of one source iteration with its flush marks: `chanMark` and
`progMark` count the rows of the parser state already handed to
`commitBatch`. -/
structure SrcSt where
  ing : IngestSt
  chanMark : Nat
  progMark : Nat
  db : EpgDb
deriving DecidableEq

/-- The chunk loop of `processEpg`: parse a chunk, flush the channel batch,
flush the programme batch once it holds 200 rows, and after the last chunk
run the two final flushes.  A `TypeError` thrown by a flush aborts the
source — the per-source `catch` only logs it — so the remaining chunks are
never parsed, the tables keep exactly the flushes committed so far, and the
counts keep everything parsed so far (they are recorded by `onclosetag`,
before any flush).  The `Bool` of the result records whether the source
aborted. -/
def processChunks (url : Str) : SrcSt → List (List XmlEvent) →
    EpgDb × List (Option Str × Nat) × Bool
  | s, [] =>
    match commitChannels s.db.channels (s.ing.channelRows.drop s.chanMark) with
    | none => (s.db, s.ing.counts, true)
    | some chTbl =>
      match commitPrograms s.db.programs (s.ing.programRows.drop s.progMark) with
      | none => ({ s.db with channels := chTbl }, s.ing.counts, true)
      | some prTbl => ({ channels := chTbl, programs := prTbl }, s.ing.counts, false)
  | s, chunk :: rest =>
    let ing2 := chunk.foldl (ingestStep url) s.ing
    match commitChannels s.db.channels (ing2.channelRows.drop s.chanMark) with
    | none => (s.db, ing2.counts, true)
    | some chTbl =>
      if 200 ≤ ing2.programRows.length - s.progMark then
        match commitPrograms s.db.programs (ing2.programRows.drop s.progMark) with
        | none => ({ s.db with channels := chTbl }, ing2.counts, true)
        | some prTbl =>
          processChunks url
            { ing := ing2, chanMark := ing2.channelRows.length,
              progMark := ing2.programRows.length,
              db := { channels := chTbl, programs := prTbl } } rest
      else
        processChunks url
          { ing := ing2, chanMark := ing2.channelRows.length,
            progMark := s.progMark, db := { s.db with channels := chTbl } } rest

/-- One full source iteration of `processEpg` with the fallible flushes.
The per-source `DELETE`s run before the `try`, so they are applied even
when the source aborts later. -/
def processEpgSource (db : EpgDb) (url : Str) (chunks : List (List XmlEvent)) :
    EpgDb × List (Option Str × Nat) × Bool :=
  processChunks url
    { ing := initIngestSt, chanMark := 0, progMark := 0,
      db := { channels := db.channels.filter (fun r => r.source ≠ url),
              programs := db.programs.filter (fun r => r.source ≠ url) } } chunks

/-! ## The channel → guide-channel matching pass of `processEpg`

One lineup channel is matched against the current guide-channel set.  The
Fuse.js fuzzy index is an external collaborator and is passed in as a
function returning scored results (scores as rationals; `score.toFixed(2)`
is passed in as an abstract formatter).  `String(x)` applied to a nullable
database value is modelled by `strOfNullable` (`null` prints as `"null"`). -/

/-- A row of the `epg_channels` query (`id as _id, display_name`). -/
structure GuideChan where
  id : Option Str
  displayName : Option Str
deriving DecidableEq

/-- The fields of a `channels` row used by the matching pass. -/
structure MatchChannelRow where
  id : Str
  name : Str
  tvgId : Str
  matchedEpgId : Option Str
  matchType : Option Str
deriving DecidableEq

/-- JS truthiness of a nullable string column. -/
def jsTruthyOpt (o : Option Str) : Bool :=
  match o with
  | none => false
  | some s => !s.isEmpty

/-- `String(x)` on a nullable value: `null` becomes the string `"null"`. -/
def strOfNullable (o : Option Str) : Str :=
  match o with
  | none => "null".toList
  | some s => s

/-- Tier 1 of the bulk pass: an existing match re-validated against the
current guide-channel set and re-labeled `(Confirmed)`. -/
def tierConfirmed (guide : List GuideChan) (row : MatchChannelRow) :
    Option (Option Str × Option Str) :=
  if jsTruthyOpt row.matchedEpgId then
    match guide.find? (fun c => strOfNullable c.id = strOfNullable row.matchedEpgId) with
    | some c =>
      let base := if jsTruthyOpt row.matchType then row.matchType.getD [] else "Confirmed Match".toList
      let mt := if strContains base "(Confirmed)".toList then base else base ++ " (Confirmed)".toList
      some (c.id, some mt)
    | none => none
  else none

/-- Tier 2: a manual override, provided the overridden guide channel exists. -/
def tierOverride (guide : List GuideChan) (ov : Option Str) (_row : MatchChannelRow) :
    Option (Option Str × Option Str) :=
  match ov with
  | some oid =>
    match guide.find? (fun c => c.id = some oid) with
    | some c => some (c.id, some "Manual Override".toList)
    | none => none
  | none => none

/-- Tier 3 (not in the spec's tier list): rows whose `match_type` contains
`IPTV-ORG Map` are re-verified if the guide channel exists and otherwise
kept unchanged via a fabricated match object. -/
def tierIptvMap (guide : List GuideChan) (row : MatchChannelRow) :
    Option (Option Str × Option Str) :=
  if jsTruthyOpt row.matchType && strContains (row.matchType.getD []) "IPTV-ORG Map".toList then
    match guide.find? (fun c => c.id = row.matchedEpgId) with
    | some c => some (c.id, some "IPTV-ORG Map (Verified)".toList)
    | none => some (row.matchedEpgId, row.matchType)
  else none

/-- Tier 4: exact (case-sensitive) id match of `tvg_id` vs guide-channel id. -/
def tierExactId (guide : List GuideChan) (row : MatchChannelRow) :
    Option (Option Str × Option Str) :=
  if !row.tvgId.isEmpty then
    match guide.find? (fun c => c.id = some row.tvgId) with
    | some c => some (c.id, some "ID (Exact)".toList)
    | none => none
  else none

/-- Tier 5: case-insensitive partial id containment in either direction. -/
def tierPartialId (guide : List GuideChan) (row : MatchChannelRow) :
    Option (Option Str × Option Str) :=
  if !row.tvgId.isEmpty then
    let tid := lowerStr row.tvgId
    match guide.find? (fun c =>
        let eid := lowerStr (strOfNullable c.id)
        strContains tid eid || strContains eid tid) with
    | some c => some (c.id, some "ID (Partial)".toList)
    | none => none
  else none

/-- Tier 6: exact match of the cleaned, lowercased display name. -/
def tierStrictClean (guide : List GuideChan) (row : MatchChannelRow) :
    Option (Option Str × Option Str) :=
  if !row.name.isEmpty then
    let cn := lowerStr (cleanName row.name)
    match guide.find? (fun c => lowerStr (cleanName (getText c.displayName)) = cn) with
    | some c => some (c.id, some "Strict Clean".toList)
    | none => none
  else none

/-- Tier 7: the Fuse.js fuzzy search, accepted only at score ≤ 0.25. -/
def tierFuzzy (fuzzy : Str → List (GuideChan × ℚ)) (fmtScore : ℚ → Str)
    (row : MatchChannelRow) : Option (Option Str × Option Str) :=
  if !row.name.isEmpty then
    match (fuzzy (cleanName row.name)).head? with
    | some (c, score) =>
      if score ≤ (0.25 : ℚ) then
        some (c.id, some ("Fuzzy (".toList ++ fmtScore score ++ ")".toList))
      else none
    | none => none
  else none

/-- The per-channel matching logic of `processEpg` (lines 287–358): the
sequential `if (!match && …)` cascade; a miss on every branch clears the
stored reference (`matched_epg_id = NULL, match_type = NULL`). -/
def matchChannelEpg (guide : List GuideChan) (ov : Option Str)
    (fuzzy : Str → List (GuideChan × ℚ)) (fmtScore : ℚ → Str)
    (row : MatchChannelRow) : Option Str × Option Str :=
  match tierConfirmed guide row with
  | some r => r
  | none =>
    match tierOverride guide ov row with
    | some r => r
    | none =>
      match tierIptvMap guide row with
      | some r => r
      | none =>
        match tierExactId guide row with
        | some r => r
        | none =>
          match tierPartialId guide row with
          | some r => r
          | none =>
            match tierStrictClean guide row with
            | some r => r
            | none =>
              match tierFuzzy fuzzy fmtScore row with
              | some r => r
              | none => (none, none)

/-- First hit of a tier list. -/
def firstHit (ts : List (Option (Option Str × Option Str))) : Option (Option Str × Option Str) :=
  ts.foldl (fun acc t => acc <|> t) none

/-- The matching pass as the spec's claim words it: six tiers in fixed
order, first hit wins, otherwise the stored reference is cleared. -/
def specMatchSixTiers (guide : List GuideChan) (ov : Option Str)
    (fuzzy : Str → List (GuideChan × ℚ)) (fmtScore : ℚ → Str)
    (row : MatchChannelRow) : Option Str × Option Str :=
  (firstHit [tierConfirmed guide row, tierOverride guide ov row,
    tierExactId guide row, tierPartialId guide row,
    tierStrictClean guide row, tierFuzzy fuzzy fmtScore row]).getD (none, none)

/-- The amended tier list: the stored-IPTV-ORG-map tier sits between the
manual override and the exact id match. -/
def specMatchSevenTiers (guide : List GuideChan) (ov : Option Str)
    (fuzzy : Str → List (GuideChan × ℚ)) (fmtScore : ℚ → Str)
    (row : MatchChannelRow) : Option Str × Option Str :=
  (firstHit [tierConfirmed guide row, tierOverride guide ov row,
    tierIptvMap guide row, tierExactId guide row, tierPartialId guide row,
    tierStrictClean guide row, tierFuzzy fuzzy fmtScore row]).getD (none, none)

/-! ## The pre-match pass (`applyPreMatches`, playlist service) -/

/-- A row of `iptv_org_map`. -/
structure IptvMapRow where
  name : Str
  xmltvId : Str
  lang : Option Str
  site : Option Str
  siteId : Option Str
deriving DecidableEq

/-- The fields of a `channels` row used by `applyPreMatches`. -/
structure PreMatchRow where
  id : Str
  name : Str
  lang : Str
  matchedEpgId : Option Str
  matchType : Option Str
deriving DecidableEq

/-- Language selection of the pre-match pass: exact (case-insensitive)
language match, else the candidate with no language at all, else none;
without a target language the first row wins. -/
def pickBestLangMatch (mapRes : List IptvMapRow) (target : Str) : Option IptvMapRow :=
  if target.isEmpty then mapRes.head?
  else
    match mapRes.find? (fun r => jsTruthyOpt r.lang && lowerStr (r.lang.getD []) = lowerStr target) with
    | some e => some e
    | none => mapRes.find? (fun r => !jsTruthyOpt r.lang)

/-- One channel of `applyPreMatches`: keep any existing match (re-labeled
`(Confirmed)`), else apply a manual override, else look the channel name up
in the community map with the language rule; only a non-empty result is
written back. -/
def applyPreMatch (overrides : List (Str × Str)) (iptvMap : List IptvMapRow)
    (preferredLang : Option Str) (row : PreMatchRow) : PreMatchRow :=
  let result : Option (Str × Str) :=
    if jsTruthyOpt row.matchedEpgId then
      let base := if jsTruthyOpt row.matchType then row.matchType.getD [] else "Confirmed Match".toList
      let mt := if strContains base "(Confirmed)".toList then base else base ++ " (Confirmed)".toList
      some (strOfNullable row.matchedEpgId, mt)
    else
      match (overrides.find? (fun kv => kv.fst = row.id)).map (fun kv => kv.snd) with
      | some oid => some (oid, "Manual Override".toList)
      | none =>
        if !row.name.isEmpty then
          let mapRes := iptvMap.filter (fun r => lowerStr r.name = lowerStr row.name)
          if !mapRes.isEmpty then
            let target : Str := if row.lang.isEmpty then preferredLang.getD [] else row.lang
            match pickBestLangMatch mapRes target with
            | some best => some (best.xmltvId, "IPTV-ORG Map (Pre-match)".toList)
            | none => none
          else none
        else none
  match result with
  | some (mid, mt) =>
    if mid.isEmpty then row
    else { row with matchedEpgId := some mid, matchType := some mt }
  | none => row

/-! ## Association-list primitives shared by the keyed tables -/

/-- `SELECT … WHERE key = ?` on a keyed table: value of the first row with
the key. -/
def alookup {B : Type} : List (Str × B) → Str → Option B
  | [], _ => none
  | kv :: rest, k => if kv.fst = k then some kv.snd else alookup rest k

/-- `UPDATE … WHERE key = ?`: rewrite every row carrying the key. -/
def aupdate {B : Type} : List (Str × B) → Str → (B → B) → List (Str × B)
  | [], _, _ => []
  | kv :: rest, k, g =>
    (if kv.fst = k then (kv.fst, g kv.snd) else kv) :: aupdate rest k g

/-- `INSERT … ON CONFLICT(key) DO UPDATE`: update the existing row, or
append a fresh one. -/
def aupsert {B : Type} (m : List (Str × B)) (k : Str) (f : Option B → B) : List (Str × B) :=
  if (alookup m k).isSome then aupdate m k (fun b => f (some b))
  else m ++ [(k, f none)]

/-! ## The grab orchestrator (`grabber.ts`)

`site_status`, `channel_grab_status`, `channels`, `manual_overrides` and
`grab_logs` are modelled as association lists / row lists; timestamps are
integers supplied by the caller (`Date.now()` is external), and grab-log
durations are one abstract integer per channel run. -/

/-- A row of `site_status`. -/
structure SiteStatus where
  lastAttempt : Int
  lastSuccess : Option Int
  failureCount : Int
deriving DecidableEq

/-- The `site_status` table. -/
abbrev SiteMap := List (Str × SiteStatus)

/-- `SELECT … FROM site_status WHERE site = ?`. -/
def siteLookup (m : SiteMap) (site : Str) : Option SiteStatus :=
  alookup m site

/-- `MAX_FAILURES_BEFORE_SKIP`. -/
def maxFailuresBeforeSkip : Int := 3

/-- `RETRY_INTERVAL_MS` (20 hours). -/
def retryIntervalMs : Int := 20 * 60 * 60 * 1000

/-- `MAX_CHANNEL_FAILURES_BEFORE_DISABLE`. -/
def maxChannelFailuresBeforeDisable : Int := 5

/-- `shouldSkipSite`: skip exactly when the consecutive-failure count has
reached the threshold and the last attempt is within the retry window. -/
def shouldSkipSite (m : SiteMap) (site : Str) (now : Int) : Bool :=
  match siteLookup m site with
  | none => false
  | some r =>
    if maxFailuresBeforeSkip ≤ r.failureCount then
      decide (now - r.lastAttempt < retryIntervalMs)
    else false

/-- Keyed upsert into `site_status` (`INSERT … ON CONFLICT DO UPDATE`). -/
def upsertSite (m : SiteMap) (site : Str) (f : Option SiteStatus → SiteStatus) : SiteMap :=
  aupsert m site f

/-- The success upsert of `recordSiteAttempt`: reset the count, stamp both times. -/
def siteSuccessUpdate (now : Int) : Option SiteStatus → SiteStatus := fun _ =>
  { lastAttempt := now, lastSuccess := some now, failureCount := 0 }

/-- The failure upsert of `recordSiteAttempt`: stamp the attempt, increment the count. -/
def siteFailUpdate (now : Int) : Option SiteStatus → SiteStatus := fun old =>
  match old with
  | none => { lastAttempt := now, lastSuccess := none, failureCount := 1 }
  | some r => { r with lastAttempt := now, failureCount := r.failureCount + 1 }

/-- `recordSiteAttempt`: success resets the failure count to 0 and stamps
both times; failure stamps the attempt and increments the count. -/
def recordSiteAttempt (m : SiteMap) (site : Str) (success : Bool) (now : Int) : SiteMap :=
  if success then upsertSite m site (siteSuccessUpdate now)
  else upsertSite m site (siteFailUpdate now)

/-- A row of `channel_grab_status`. -/
structure ChanStatus where
  consecutiveFailures : Int
  lastSuccess : Option Int
  lastFailure : Option Int
  autoDisabled : Bool
deriving DecidableEq

/-- The `channel_grab_status` table. -/
abbrev ChanStatusMap := List (Str × ChanStatus)

/-- Keyed upsert into `channel_grab_status`. -/
def upsertChan (m : ChanStatusMap) (id : Str) (f : Option ChanStatus → ChanStatus) : ChanStatusMap :=
  aupsert m id f

/-- Lookup in `channel_grab_status`. -/
def chanLookup (m : ChanStatusMap) (id : Str) : Option ChanStatus :=
  alookup m id

/-- The fields of a `channels` row used by the grabber. -/
structure LineupChan where
  id : Str
  matchedEpgId : Option Str
  enabled : Bool
deriving DecidableEq

/-- The success upsert of `recordChannelGrabResult`: reset the count, stamp
the success, clear the auto-disable flag. -/
def chanSuccessUpdate (now : Int) : Option ChanStatus → ChanStatus := fun old =>
  match old with
  | none =>
    { consecutiveFailures := 0, lastSuccess := some now,
      lastFailure := none, autoDisabled := false }
  | some r =>
    { r with consecutiveFailures := 0, lastSuccess := some now, autoDisabled := false }

/-- The failure upsert of `recordChannelGrabResult`: increment the count,
stamp the failure. -/
def chanFailUpdate (now : Int) : Option ChanStatus → ChanStatus := fun old =>
  match old with
  | none =>
    { consecutiveFailures := 1, lastSuccess := none,
      lastFailure := some now, autoDisabled := false }
  | some r =>
    { r with consecutiveFailures := r.consecutiveFailures + 1, lastFailure := some now }

/-- `recordChannelGrabResult`: success resets the tracker; failure
increments it and, at the threshold, disables the lineup channels mapped to
this guide id (directly or through a manual override) and marks the status
row.  Returns the updated tables and the `wasDisabled` flag. -/
def recordChannelGrabResult (cs : ChanStatusMap) (chans : List LineupChan)
    (overrides : List (Str × Str)) (xmltvId : Str) (success : Bool) (now : Int) :
    ChanStatusMap × List LineupChan × Bool :=
  if success then
    (upsertChan cs xmltvId (chanSuccessUpdate now), chans, false)
  else
    let cs' := upsertChan cs xmltvId (chanFailUpdate now)
    let failures := ((chanLookup cs' xmltvId).map (fun r => r.consecutiveFailures)).getD 0
    if maxChannelFailuresBeforeDisable ≤ failures then
      let chans' := chans.map (fun c =>
        if c.matchedEpgId = some xmltvId
            || overrides.any (fun ov => ov.fst = c.id && ov.snd = xmltvId) then
          { c with enabled := false }
        else c)
      (aupdate cs' xmltvId (fun r => { r with autoDisabled := true }), chans', true)
    else (cs', chans, false)

/-- `reEnableChannels` for one guide id: reset the tracker and re-enable the
mapped lineup channels. -/
def reEnableChannel (cs : ChanStatusMap) (chans : List LineupChan) (xmltvId : Str) :
    ChanStatusMap × List LineupChan :=
  (aupdate cs xmltvId (fun r => { r with consecutiveFailures := 0, autoDisabled := false }),
   chans.map (fun c => if c.matchedEpgId = some xmltvId then { c with enabled := true } else c))

/-- A row of `grab_logs`. -/
structure GrabLogRow where
  xmltvId : Str
  site : Str
  timestamp : Int
  success : Bool
  message : Str
  programCount : Nat
  durationMs : Int
deriving DecidableEq

/-- Decimal rendering of a count, for the log messages. -/
def natStr (n : Nat) : Str := (Nat.repr n).toList

/-- Result of one external grabber invocation: the spawned command fails,
or succeeds without producing the output file, or produces a guide file
(given by its sax event stream). -/
inductive GrabOutcome where
  | err (msg : Str)
  | noOutput
  | output (events : List XmlEvent)

/-- The mutable state touched by one `processChannel` run. -/
structure GrabberSt where
  db : EpgDb
  siteStatus : SiteMap
  chanStatus : ChanStatusMap
  channels : List LineupChan
  overrides : List (Str × Str)
  grabLogs : List GrabLogRow
deriving DecidableEq

/-- The purge before re-ingesting a grabbed channel:
`DELETE FROM epg_programs WHERE channel_id = ? AND source LIKE '%iptv-org%'`
(`LIKE` is case-insensitive on ASCII). -/
def purgeGrabbed (db : EpgDb) (xmltvId : Str) : EpgDb :=
  { db with programs := db.programs.filter (fun r =>
      !(r.channelId = some xmltvId && strContains (lowerStr r.source) "iptv-org".toList)) }

/-- `recordGrabLog`: append-only insert. -/
def recordGrabLog (st : GrabberSt) (xmltvId site : Str) (now : Int) (success : Bool)
    (message : Str) (programCount : Nat) (durationMs : Int) : GrabberSt :=
  let row : GrabLogRow :=
    { xmltvId := xmltvId, site := site, timestamp := now, success := success,
      message := message, programCount := programCount, durationMs := durationMs }
  { st with grabLogs := st.grabLogs ++ [row] }

/-- One candidate of a channel, as grouped by `grabMissingChannels`. -/
structure SiteInfo where
  site : Str
  siteId : Str
  lang : Str
deriving DecidableEq

/-- The per-channel candidate loop of `processChannel` (grabber.ts lines
687–766): sites are tried in list order; a breaker-skippable site is
skipped, a failed command records a site failure and moves on, a produced
guide file is ingested after the iptv-org purge and is a per-candidate
failure when it yields zero programs for the channel; the first non-zero
candidate records success everywhere and stops.  Exhaustion records one
`all`-site failure log and a channel-health failure.  `grab` is the
external grabber, `tempPath i` the random temp file of attempt `i`. -/
def processChannelGo (grab : Str → Str → GrabOutcome) (tempPath : Nat → Str)
    (now dur : Int) (xmltvId : Str) :
    GrabberSt → Nat → Str → List SiteInfo → GrabberSt × Bool
  | st, _, lastError, [] =>
    let msg := if lastError.isEmpty then "All sites failed or returned 0 programs".toList else lastError
    let st := recordGrabLog st xmltvId "all".toList now false msg 0 dur
    let (cs, chans, _) :=
      recordChannelGrabResult st.chanStatus st.channels st.overrides xmltvId false now
    ({ st with chanStatus := cs, channels := chans }, false)
  | st, i, lastError, s :: rest =>
    if shouldSkipSite st.siteStatus s.site now then
      processChannelGo grab tempPath now dur xmltvId st i lastError rest
    else
      match grab s.site s.siteId with
      | GrabOutcome.err m =>
        let st := { st with siteStatus := recordSiteAttempt st.siteStatus s.site false now }
        processChannelGo grab tempPath now dur xmltvId st (i + 1) m rest
      | GrabOutcome.noOutput =>
        processChannelGo grab tempPath now dur xmltvId st (i + 1) lastError rest
      | GrabOutcome.output events =>
        let purged := purgeGrabbed st.db xmltvId
        let res := ingestSource purged (tempPath i) events
        let st := { st with db := res.fst }
        let count := countFor res.snd xmltvId
        if count = 0 then
          let st := recordGrabLog st xmltvId s.site now false
            "Site returned 0 programs, trying next".toList 0 dur
          let st := { st with siteStatus := recordSiteAttempt st.siteStatus s.site false now }
          processChannelGo grab tempPath now dur xmltvId st (i + 1)
            (s.site ++ " returned 0 programs".toList) rest
        else
          let st := recordGrabLog st xmltvId s.site now true
            ("Loaded ".toList ++ natStr count ++ " programs".toList) count dur
          let st := { st with siteStatus := recordSiteAttempt st.siteStatus s.site true now }
          let (cs, chans, _) :=
            recordChannelGrabResult st.chanStatus st.channels st.overrides xmltvId true now
          ({ st with chanStatus := cs, channels := chans }, true)

/-- Entry point for one channel. -/
def processChannel (grab : Str → Str → GrabOutcome) (tempPath : Nat → Str)
    (now dur : Int) (xmltvId : Str) (st : GrabberSt) (sites : List SiteInfo) :
    GrabberSt × Bool :=
  processChannelGo grab tempPath now dur xmltvId st 0 [] sites

/-! ## Candidate ranking (`grabMissingChannels`, C8)

The SQL `ORDER BY m.xmltv_id, m.site` is modelled as a stable sort on the
pair of TEXT keys (SQLite `BINARY` collation = codepoint order); rows are
then grouped per channel in row order. -/

/-- Codepoint-wise strict lexicographic order on strings. -/
def strLt : Str → Str → Bool
  | [], [] => false
  | [], _ :: _ => true
  | _ :: _, [] => false
  | a :: as, b :: bs => decide (a.toNat < b.toNat) || (a = b && strLt as bs)

/-- The `ORDER BY xmltv_id, site` key order. -/
def candLe (r1 r2 : IptvMapRow) : Prop :=
  (strLt r1.xmltvId r2.xmltvId
    || (r1.xmltvId = r2.xmltvId
        && (strLt (strOfNullable r1.site) (strOfNullable r2.site)
            || strOfNullable r1.site = strOfNullable r2.site))) = true

instance : DecidableRel candLe := fun r1 r2 => by unfold candLe; infer_instance

/-- Per-channel site order (`ORDER BY site` within one channel). -/
def siteLe (r1 r2 : IptvMapRow) : Prop :=
  (strLt (strOfNullable r1.site) (strOfNullable r2.site)
    || strOfNullable r1.site = strOfNullable r2.site) = true

instance : DecidableRel siteLe := fun r1 r2 => by unfold siteLe; infer_instance

/-- The candidate-row query of `grabMissingChannels`:
`WHERE xmltv_id IN (…) AND site IS NOT NULL ORDER BY xmltv_id, site`. -/
def queryCandidateRows (table : List IptvMapRow) (ids : List Str) : List IptvMapRow :=
  List.insertionSort candLe
    (table.filter (fun r => ids.contains r.xmltvId && r.site.isSome))

/-- Conversion of a map row to the grabbed `SiteInfo`
(`String(row.site)`, `String(row.site_id)`, `String(row.lang || 'en')`). -/
def toSiteInfo (r : IptvMapRow) : SiteInfo :=
  { site := strOfNullable r.site, siteId := strOfNullable r.siteId,
    lang := if jsTruthyOpt r.lang then r.lang.getD [] else "en".toList }

/-- Grouping of the query rows per channel, in row order. -/
def groupChannelSites (rows : List IptvMapRow) : List (Str × List SiteInfo) :=
  rows.foldl (fun acc r =>
    if (alookup acc r.xmltvId).isSome then
      aupdate acc r.xmltvId (fun sites => sites ++ [toSiteInfo r])
    else acc ++ [(r.xmltvId, [toSiteInfo r])]) []

/-- The candidate list the orchestrator tries for one channel. -/
def channelCandidates (table : List IptvMapRow) (ids : List Str) (ch : Str) : List SiteInfo :=
  (alookup (groupChannelSites (queryCandidateRows table ids)) ch).getD []

/-- The candidate list as the claim words it: the channel's rows in
corpus insertion order, not re-sorted. -/
def specInsertionOrderCandidates (table : List IptvMapRow) (ids : List Str) (ch : Str) :
    List SiteInfo :=
  ((table.filter (fun r => ids.contains r.xmltvId && r.site.isSome)).filter
    (fun r => r.xmltvId = ch)).map toSiteInfo

/-! ## Concrete instances used by individual claims -/

/-- An empty grabber state (fresh database). -/
def emptyGrabberSt : GrabberSt :=
  { db := { channels := [], programs := [] }, siteStatus := [], chanStatus := [],
    channels := [], overrides := [], grabLogs := [] }

/-- Programme attributes for channel `c1` (used by C1). -/
def c1ProgAttrs (st sp : String) : XmlAttrs :=
  { channel := some "c1".toList, start := some st.toList, stop := some sp.toList }

/-- A grabbed guide file with two programmes for channel `c1`. -/
def c1Feed : List XmlEvent :=
  [XmlEvent.openTag "programme".toList (c1ProgAttrs "20240101000000 +0000" "20240101010000 +0000"),
   XmlEvent.closeTag "programme".toList,
   XmlEvent.openTag "programme".toList (c1ProgAttrs "20240101010000 +0000" "20240101020000 +0000"),
   XmlEvent.closeTag "programme".toList]

/-- A grabber whose external command always produces `c1Feed`. -/
def c1Grab : Str → Str → GrabOutcome := fun _ _ => GrabOutcome.output c1Feed

/-- The single candidate site of the C1 scenario. -/
def c1Site : SiteInfo := { site := "example.com".toList, siteId := "id1".toList, lang := "en".toList }

/-- First grab of channel `c1` (random temp file `/tmp/grab_aaa.xml`). -/
def c1RunA : GrabberSt × Bool :=
  processChannel c1Grab (fun _ => "/tmp/grab_aaa.xml".toList) 0 0 "c1".toList emptyGrabberSt [c1Site]

/-- Second grab of the same channel (fresh random temp file `/tmp/grab_bbb.xml`). -/
def c1RunB : GrabberSt × Bool :=
  processChannel c1Grab (fun _ => "/tmp/grab_bbb.xml".toList) 0 0 "c1".toList c1RunA.fst [c1Site]

/-- A feed whose first programme lacks the required `channel` attribute and
whose second programme is well formed. -/
def c10Feed : List XmlEvent :=
  [XmlEvent.openTag "programme".toList
     { channel := none, start := some "20240101000000 +0000".toList,
       stop := some "20240101010000 +0000".toList },
   XmlEvent.openTag "title".toList {},
   XmlEvent.text "Morning Show".toList,
   XmlEvent.closeTag "title".toList,
   XmlEvent.closeTag "programme".toList,
   XmlEvent.openTag "programme".toList
     { channel := some "good.ch".toList, start := some "20240101010000 +0000".toList,
       stop := some "20240101020000 +0000".toList },
   XmlEvent.openTag "title".toList {},
   XmlEvent.text "Noon Show".toList,
   XmlEvent.closeTag "title".toList,
   XmlEvent.closeTag "programme".toList]

/-- Guide set of the C4 counterexample: only channel `y` exists. -/
def c4Guide : List GuideChan :=
  [{ id := some "y".toList, displayName := some "Y Channel".toList }]

/-- A channel pre-matched by the community map to `x` (absent from the
guide) whose declared `tvg_id` matches guide channel `y` exactly. -/
def c4Row : MatchChannelRow :=
  { id := "ch1".toList, name := "Some Name".toList, tvgId := "y".toList,
    matchedEpgId := some "x".toList, matchType := some "IPTV-ORG Map (Pre-match)".toList }

/-- An empty fuzzy index. -/
def noFuzzy : Str → List (GuideChan × ℚ) := fun _ => []

/-- A trivial score formatter. -/
def noScoreFmt : ℚ → Str := fun _ => []

/-- Guide set of the C3 counterexample. -/
def c3Guide : List GuideChan :=
  [{ id := some "y".toList, displayName := some "Y Channel".toList }]

/-- A channel carrying a confirmed match to `x`, absent from the current
guide set, whose `tvg_id` exact-matches guide channel `y`. -/
def c3Row : MatchChannelRow :=
  { id := "ch1".toList, name := "Some Name".toList, tvgId := "y".toList,
    matchedEpgId := some "x".toList, matchType := some "ID (Exact) (Confirmed)".toList }

/-- Witness guide set for C3: the confirmed id `m` is present. -/
def c3WGuide : List GuideChan :=
  [{ id := some "m".toList, displayName := some "M Channel".toList }]

/-- Witness channel for C3 with a still-valid confirmed match. -/
def c3WRow : MatchChannelRow :=
  { id := "cw".toList, name := "Whatever".toList, tvgId := "z".toList,
    matchedEpgId := some "m".toList, matchType := some "Strict Clean".toList }

/-- Witness override table for C3. -/
def c3WOverrides : List (Str × Str) := [("p1".toList, "o1".toList)]

/-- Witness pre-match channel for C3 without an existing match. -/
def c3WPre : PreMatchRow :=
  { id := "p1".toList, name := "Some Channel".toList, lang := [],
    matchedEpgId := none, matchType := none }

/-- A corpus whose two candidate mappings for channel `c` were inserted
with the later site name first. -/
def c8Table : List IptvMapRow :=
  [{ name := "Chan C".toList, xmltvId := "c".toList, lang := some "en".toList,
     site := some "zz.example.com".toList, siteId := some "1".toList },
   { name := "Chan C".toList, xmltvId := "c".toList, lang := some "en".toList,
     site := some "aa.example.com".toList, siteId := some "2".toList }]

/-- The grab-log row recorded for a candidate that returned zero programs. -/
def zeroProgramLog (xmltvId : Str) (now dur : Int) (t : SiteInfo) : GrabLogRow :=
  { xmltvId := xmltvId, site := t.site, timestamp := now, success := false,
    message := "Site returned 0 programs, trying next".toList, programCount := 0,
    durationMs := dur }

/-- The grab-log row recorded for the first candidate with programs. -/
def loadedLog (xmltvId : Str) (now dur : Int) (site : Str) (cnt : Nat) : GrabLogRow :=
  { xmltvId := xmltvId, site := site, timestamp := now, success := true,
    message := "Loaded ".toList ++ natStr cnt ++ " programs".toList, programCount := cnt,
    durationMs := dur }

/-- First candidate site of the two-candidate C2 scenario: grabs succeed but
carry zero programmes for the channel. -/
def c2SiteA : SiteInfo :=
  { site := "a.example.com".toList, siteId := "ida".toList, lang := "en".toList }

/-- Second candidate site of the C2 scenario: its grab yields 12 programmes. -/
def c2SiteB : SiteInfo :=
  { site := "b.example.com".toList, siteId := "idb".toList, lang := "en".toList }

/-- A well-formed feed of `n` programme entries for channel `c`. -/
def c2FeedN : Nat → List XmlEvent
  | 0 => []
  | n + 1 =>
    XmlEvent.openTag "programme".toList
        { channel := some "c".toList, start := some "20240101000000 +0000".toList,
          stop := some "20240101010000 +0000".toList } ::
      XmlEvent.closeTag "programme".toList :: c2FeedN n

/-- Grabber of the C2 scenario: site `a.example.com` returns an empty feed,
every other site the 12-programme feed. -/
def c2Grab : Str → Str → GrabOutcome := fun site _ =>
  if site = "a.example.com".toList then GrabOutcome.output []
  else GrabOutcome.output (c2FeedN 12)

/-- Temp-file paths used by the C2 scenario run. -/
def c2TempPath : Nat → Str := fun _ => "/tmp/grab_w.xml".toList

/-! # Theorems -/

/-- Every character the scanner keeps was present in its input. -/
theorem mem_of_mem_scanGo (try_ : Option Char → Str → Option Nat) :
    ∀ (skip : Nat) (prev : Option Char) (l : Str) (c : Char),
      c ∈ scanGo try_ skip prev l → c ∈ l := by
  intro skip prev l
  induction l generalizing skip prev with
  | nil => intro c h; simp [scanGo] at h
  | cons a as ih =>
    intro c h
    cases skip with
    | succ n =>
      simp only [scanGo] at h
      exact List.mem_cons_of_mem _ (ih _ _ _ h)
    | zero =>
      simp only [scanGo] at h
      cases htry : try_ prev (a :: as) with
      | some k =>
        rw [htry] at h
        exact List.mem_cons_of_mem _ (ih _ _ _ h)
      | none =>
        rw [htry] at h
        rcases List.mem_cons.mp h with h' | h'
        · exact h' ▸ List.mem_cons_self _ _
        · exact List.mem_cons_of_mem _ (ih _ _ _ h')

/-! Sanity checks: the jest vectors of the metadata and EPG services. -/

example : normalizeTitle "THE SIMPSONS".toList = "the simpsons".toList := by decide
example : normalizeTitle "  Breaking Bad  ".toList = "breaking bad".toList := by decide
example : normalizeTitle "Game of Thrones: The Iron Throne".toList = "game of thrones".toList := by decide
example : normalizeTitle "TV: Special Show".toList = "tv special show".toList := by decide
example : normalizeTitle "Star Trek: Deep Space Nine: S01E01".toList = "star trek".toList := by decide
example : normalizeTitle "Movie Title 1080p".toList = "movie title".toList := by decide
example : normalizeTitle "Show h.264".toList = "show".toList := by decide
example : normalizeTitle "Friends S01E01".toList = "friends".toList := by decide
example : normalizeTitle "Breaking Bad 1x01".toList = "breaking bad".toList := by decide
example : normalizeTitle "Stranger Things Season 4".toList = "stranger things".toList := by decide
example : normalizeTitle "Better Call Saul Episode 10".toList = "better call saul".toList := by decide
example : normalizeTitle "The Crown (2016)".toList = "the crown".toList := by decide
example : normalizeTitle "Doctor Who (2005) Special".toList = "doctor who special".toList := by decide
example : normalizeTitle "".toList = "".toList := by decide
example : normalizeTitle "   ".toList = "".toList := by decide
example : normalizeTitle "Movie HD 1080p HEVC".toList = "movie".toList := by decide
example : normalizeTitle "Show S01E05 720p HEVC x265".toList = "show".toList := by decide

example : cleanName "CNN".toList = "CNN".toList := by decide
example : cleanName "  ABC  ".toList = "ABC".toList := by decide
example : cleanName "Fox   Sports   1".toList = "Fox Sports 1".toList := by decide
example : cleanName "CNN (US) (HD)".toList = "CNN".toList := by decide
example : cleanName "FOX [US] [HD]".toList = "FOX".toList := by decide
example : cleanName "ESPN 1080p".toList = "ESPN".toList := by decide
example : cleanName "Showtime FHD".toList = "Showtime".toList := by decide
example : cleanName "UK: BBC One".toList = "BBC One".toList := by decide
example : cleanName "FRANCE: TF1".toList = "TF1".toList := by decide
example : cleanName "USA: CBS".toList = "CBS".toList := by decide
example : cleanName "A&E Network".toList = "AE Network".toList := by decide
example : cleanName "Foo! Bar?".toList = "Foo Bar".toList := by decide
example : cleanName "US: ESPN HD (Backup) [1080p]".toList = "ESPN".toList := by decide
example : cleanName "!@#$%".toList = "".toList := by decide
example : getText none = "".toList := by decide
example : getText (some "A & B".toList) = "A &amp; B".toList := by decide
example : getText (some "a < b".toList) = "a &lt; b".toList := by decide
example : getText (some "<a href=\"test\">link</a>".toList)
    = "&lt;a href=&quot;test&quot;&gt;link&lt;/a&gt;".toList := by decide


/-! ## Association-list lemmas -/

theorem alookup_aupdate_self {B : Type} (m : List (Str × B)) (k : Str) (g : B → B) :
    alookup (aupdate m k g) k = (alookup m k).map g := by
  induction m with
  | nil => rfl
  | cons kv rest ih =>
    by_cases h : kv.fst = k
    · simp [alookup, aupdate, h]
    · simp [alookup, aupdate, h, ih]

theorem alookup_aupdate_ne {B : Type} (m : List (Str × B)) (k k' : Str) (g : B → B)
    (h : k' ≠ k) : alookup (aupdate m k g) k' = alookup m k' := by
  induction m with
  | nil => rfl
  | cons kv rest ih =>
    by_cases hk : kv.fst = k
    · simp [alookup, aupdate, hk, Ne.symm h, ih]
    · by_cases hk' : kv.fst = k'
      · simp [alookup, aupdate, hk, hk', h]
      · simp [alookup, aupdate, hk, hk', ih]

theorem alookup_append_right {B : Type} (m : List (Str × B)) (k : Str) (x : Str × B)
    (h : alookup m k = none) :
    alookup (m ++ [x]) k = if x.fst = k then some x.snd else none := by
  induction m with
  | nil => rfl
  | cons kv rest ih =>
    by_cases hk : kv.fst = k
    · rw [show alookup (kv :: rest) k = some kv.snd by simp [alookup, hk]] at h
      cases h
    · simp only [alookup, hk, if_false, List.cons_append] at h ⊢
      exact ih h

theorem alookup_append_single_ne {B : Type} (m : List (Str × B)) (k k' : Str) (b : B)
    (h : k' ≠ k) : alookup (m ++ [(k, b)]) k' = alookup m k' := by
  induction m with
  | nil =>
    have : k ≠ k' := fun hh => h hh.symm
    simp [alookup, this]
  | cons kv rest ih =>
    by_cases hk : kv.fst = k'
    · simp [alookup, hk]
    · simp [alookup, hk, ih]

theorem alookup_aupsert_self {B : Type} (m : List (Str × B)) (k : Str) (f : Option B → B) :
    alookup (aupsert m k f) k = some (f (alookup m k)) := by
  unfold aupsert
  by_cases h : (alookup m k).isSome
  · rw [if_pos h, alookup_aupdate_self]
    rcases Option.isSome_iff_exists.mp h with ⟨b, hb⟩
    simp [hb]
  · rw [if_neg h]
    have hn : alookup m k = none := Option.not_isSome_iff_eq_none.mp h
    rw [alookup_append_right m k _ hn, hn]
    simp

theorem alookup_aupsert_ne {B : Type} (m : List (Str × B)) (k k' : Str) (f : Option B → B)
    (h : k' ≠ k) : alookup (aupsert m k f) k' = alookup m k' := by
  unfold aupsert
  by_cases hs : (alookup m k).isSome
  · rw [if_pos hs]; exact alookup_aupdate_ne m k k' _ h
  · rw [if_neg hs]; exact alookup_append_single_ne m k k' _ h

/-! ## C7: the per-source circuit breaker -/

/-- C7: the orchestrator skips a source exactly when its consecutive-failure
count has reached the fixed threshold (3) AND the time since the last
attempt is within the fixed cool-down window (20 h); once the window has
elapsed the source is attempted again regardless of its failure count, so
it is never permanently blacklisted. -/
theorem c7_shouldSkipSite_iff (m : SiteMap) (site : Str) (now : Int) :
    shouldSkipSite m site now = true ↔
      ∃ r, siteLookup m site = some r ∧ maxFailuresBeforeSkip ≤ r.failureCount ∧
        now - r.lastAttempt < retryIntervalMs := by
  unfold shouldSkipSite
  cases h : siteLookup m site with
  | none =>
    simp only [h]
    constructor
    · intro ht; cases ht
    · rintro ⟨r, hr, -⟩; cases hr
  | some r =>
    simp only [h]
    constructor
    · intro ht
      by_cases hf : maxFailuresBeforeSkip ≤ r.failureCount
      · rw [if_pos hf] at ht
        exact ⟨r, rfl, hf, of_decide_eq_true ht⟩
      · rw [if_neg hf] at ht; cases ht
    · rintro ⟨r', hr', hf, hlt⟩
      cases hr'
      rw [if_pos hf]
      exact decide_eq_true hlt

/-! ## C1: the pre-ingest purge of grabbed programs -/

/-- C1 (the claim fails on the code): re-grabbing the same channel
duplicates its program rows.  The purge issued by `processChannel` deletes
only rows whose `source` contains `iptv-org`, but grabbed output is
ingested with the random temp-file path (`/tmp/grab_….xml`) as its source,
which the purge never matches; a second grab of channel `c1` with a fresh
temp path therefore leaves 4 rows where one grab leaves 2. -/
theorem c1_regrab_duplicates_programs :
    c1RunA.snd = true ∧
    (c1RunA.fst.db.programs.filter (fun r => r.channelId = some "c1".toList)).length = 2 ∧
    c1RunB.snd = true ∧
    (c1RunB.fst.db.programs.filter (fun r => r.channelId = some "c1".toList)).length = 4 := by
  refine ⟨rfl, ?_, rfl, ?_⟩ <;> decide

/-! ## C6: the per-channel failure tracker and auto-disable -/


/-! ## C6: the per-channel failure tracker and auto-disable -/

theorem chanLookup_success (cs : ChanStatusMap) (ch : Str) (now : Int) :
    chanLookup (upsertChan cs ch (chanSuccessUpdate now)) ch
      = some (chanSuccessUpdate now (chanLookup cs ch)) :=
  alookup_aupsert_self cs ch _

theorem chanLookup_fail (cs : ChanStatusMap) (ch : Str) (now : Int) :
    chanLookup (upsertChan cs ch (chanFailUpdate now)) ch
      = some (chanFailUpdate now (chanLookup cs ch)) :=
  alookup_aupsert_self cs ch _

theorem chanFailUpdate_count (now : Int) (old : Option ChanStatus) :
    (chanFailUpdate now old).consecutiveFailures
      = ((old.map (fun r => r.consecutiveFailures)).getD 0) + 1 := by
  cases old <;> simp [chanFailUpdate]

theorem c6_part1 (cs : ChanStatusMap) (chans : List LineupChan) (ovs : List (Str × Str))
    (ch : Str) (now : Int) :
    (chanLookup (recordChannelGrabResult cs chans ovs ch true now).1 ch).map
        (fun r => (r.consecutiveFailures, r.autoDisabled)) = some (0, false) := by
  show (chanLookup (upsertChan cs ch (chanSuccessUpdate now)) ch).map _ = _
  rw [chanLookup_success]
  cases chanLookup cs ch <;> simp [chanSuccessUpdate]

theorem c6_part2 (cs : ChanStatusMap) (chans : List LineupChan) (ovs : List (Str × Str))
    (ch : Str) (now : Int) :
    (chanLookup (recordChannelGrabResult cs chans ovs ch false now).1 ch).map
        (fun r => r.consecutiveFailures)
      = some (((chanLookup cs ch).map (fun r => r.consecutiveFailures)).getD 0 + 1) := by
  unfold recordChannelGrabResult
  simp only [Bool.false_eq_true, if_false, chanLookup_fail, Option.map_some', Option.getD_some]
  split
  · show (chanLookup (aupdate (upsertChan cs ch (chanFailUpdate now)) ch _) ch).map _ = _
    unfold chanLookup
    rw [alookup_aupdate_self]
    show ((alookup (upsertChan cs ch (chanFailUpdate now)) ch).map _).map _ = _
    rw [show alookup (upsertChan cs ch (chanFailUpdate now)) ch
        = some (chanFailUpdate now (chanLookup cs ch)) from chanLookup_fail cs ch now]
    simp [chanFailUpdate_count, chanLookup]
  · rw [chanLookup_fail]
    simp [chanFailUpdate_count]

theorem c6_part3 (cs : ChanStatusMap) (chans : List LineupChan) (ovs : List (Str × Str))
    (ch : Str) (now : Int)
    (h : maxChannelFailuresBeforeDisable ≤
        ((chanLookup cs ch).map (fun r => r.consecutiveFailures)).getD 0 + 1) :
    (chanLookup (recordChannelGrabResult cs chans ovs ch false now).1 ch).map
        (fun r => r.autoDisabled) = some true ∧
      (recordChannelGrabResult cs chans ovs ch false now).2.2 = true ∧
      (recordChannelGrabResult cs chans ovs ch false now).2.1 =
        chans.map (fun c =>
          if c.matchedEpgId = some ch
              || ovs.any (fun ov => ov.fst = c.id && ov.snd = ch) then
            { c with enabled := false }
          else c) := by
  have hcond : maxChannelFailuresBeforeDisable ≤
      (chanFailUpdate now (chanLookup cs ch)).consecutiveFailures := by
    rw [chanFailUpdate_count]; exact h
  unfold recordChannelGrabResult
  simp only [Bool.false_eq_true, if_false, chanLookup_fail, Option.map_some', Option.getD_some,
    if_pos hcond]
  refine ⟨?_, trivial, trivial⟩
  show (chanLookup (aupdate (upsertChan cs ch (chanFailUpdate now)) ch _) ch).map _ = _
  unfold chanLookup
  rw [alookup_aupdate_self]
  rw [show alookup (upsertChan cs ch (chanFailUpdate now)) ch
      = some (chanFailUpdate now (chanLookup cs ch)) from chanLookup_fail cs ch now]
  simp

theorem c6_part4 (cs : ChanStatusMap) (chans : List LineupChan) (ovs : List (Str × Str))
    (ch : Str) (now : Int)
    (h : ¬ maxChannelFailuresBeforeDisable ≤
        ((chanLookup cs ch).map (fun r => r.consecutiveFailures)).getD 0 + 1) :
    (chanLookup (recordChannelGrabResult cs chans ovs ch false now).1 ch).map
        (fun r => r.autoDisabled)
      = some (((chanLookup cs ch).map (fun r => r.autoDisabled)).getD false) ∧
      (recordChannelGrabResult cs chans ovs ch false now).2.1 = chans ∧
      (recordChannelGrabResult cs chans ovs ch false now).2.2 = false := by
  have hcond : ¬ maxChannelFailuresBeforeDisable ≤
      (chanFailUpdate now (chanLookup cs ch)).consecutiveFailures := by
    rw [chanFailUpdate_count]; exact h
  unfold recordChannelGrabResult
  simp only [Bool.false_eq_true, if_false, chanLookup_fail, Option.map_some', Option.getD_some,
    if_neg hcond]
  refine ⟨?_, trivial, trivial⟩
  cases hold : chanLookup cs ch <;> simp [chanFailUpdate, hold]

theorem c6_part5 (cs : ChanStatusMap) (chans : List LineupChan) (ovs : List (Str × Str))
    (ch : Str) (now : Int)
    (h : ∀ c ∈ chans,
        (c.matchedEpgId = some ch
          || ovs.any (fun ov => ov.fst = c.id && ov.snd = ch)) = true →
        c.enabled = false) :
    (recordChannelGrabResult cs chans ovs ch false now).2.1 = chans := by
  unfold recordChannelGrabResult
  simp only [Bool.false_eq_true, if_false]
  split
  · show chans.map _ = chans
    induction chans with
    | nil => rfl
    | cons c rest ih =>
      have hrest := ih (fun c hc => h c (List.mem_cons_of_mem _ hc))
      simp only [List.map]
      rw [hrest]
      by_cases hc : (c.matchedEpgId = some ch
          || ovs.any (fun ov => ov.fst = c.id && ov.snd = ch)) = true
      · have he := h c (List.mem_cons_self _ _) hc
        rw [if_pos hc]
        cases c
        simp_all
      · rw [if_neg hc]
  · rfl

/-- C6: a grab failure increments the channel's consecutive-failure count by
exactly one; when the count reaches the threshold (5) the status row is
marked auto-disabled, the call reports the disable, and the lineup channels
mapped to the guide id (directly or through an override) get their enabled
flag cleared — and when those flags are already set, a further failure
leaves the channel rows unchanged, so the transition happens exactly once;
below the threshold nothing is disabled; a grab success resets the count to
zero and clears the auto-disabled flag without touching the lineup rows. -/
theorem c6_channel_failure_tracker (cs : ChanStatusMap) (chans : List LineupChan) (ovs : List (Str × Str))
    (ch : Str) (now : Int) :
    ((chanLookup (recordChannelGrabResult cs chans ovs ch true now).1 ch).map
        (fun r => (r.consecutiveFailures, r.autoDisabled)) = some (0, false) ∧
      (recordChannelGrabResult cs chans ovs ch true now).2.1 = chans ∧
      (recordChannelGrabResult cs chans ovs ch true now).2.2 = false) ∧
    ((chanLookup (recordChannelGrabResult cs chans ovs ch false now).1 ch).map
        (fun r => r.consecutiveFailures)
      = some (((chanLookup cs ch).map (fun r => r.consecutiveFailures)).getD 0 + 1)) ∧
    (maxChannelFailuresBeforeDisable ≤
        ((chanLookup cs ch).map (fun r => r.consecutiveFailures)).getD 0 + 1 →
      ((chanLookup (recordChannelGrabResult cs chans ovs ch false now).1 ch).map
          (fun r => r.autoDisabled) = some true ∧
        (recordChannelGrabResult cs chans ovs ch false now).2.2 = true ∧
        (recordChannelGrabResult cs chans ovs ch false now).2.1 =
          chans.map (fun c =>
            if c.matchedEpgId = some ch
                || ovs.any (fun ov => ov.fst = c.id && ov.snd = ch) then
              { c with enabled := false }
            else c))) ∧
    (¬ maxChannelFailuresBeforeDisable ≤
        ((chanLookup cs ch).map (fun r => r.consecutiveFailures)).getD 0 + 1 →
      ((chanLookup (recordChannelGrabResult cs chans ovs ch false now).1 ch).map
          (fun r => r.autoDisabled)
        = some (((chanLookup cs ch).map (fun r => r.autoDisabled)).getD false) ∧
        (recordChannelGrabResult cs chans ovs ch false now).2.1 = chans ∧
        (recordChannelGrabResult cs chans ovs ch false now).2.2 = false)) ∧
    ((∀ c ∈ chans,
        (c.matchedEpgId = some ch
          || ovs.any (fun ov => ov.fst = c.id && ov.snd = ch)) = true →
        c.enabled = false) →
      (recordChannelGrabResult cs chans ovs ch false now).2.1 = chans) :=
  ⟨⟨c6_part1 cs chans ovs ch now, rfl, rfl⟩,
   c6_part2 cs chans ovs ch now,
   fun h => c6_part3 cs chans ovs ch now h,
   fun h => c6_part4 cs chans ovs ch now h,
   fun h => c6_part5 cs chans ovs ch now h⟩

def c6CsW : ChanStatusMap := [("c".toList,
  { consecutiveFailures := 4, lastSuccess := none, lastFailure := none, autoDisabled := false })]
def c6ChansW : List LineupChan :=
  [{ id := "ch1".toList, matchedEpgId := some "c".toList, enabled := true }]

/-- Witness for C6 at a channel one failure below the threshold. -/
theorem c6_witness :
    (recordChannelGrabResult c6CsW c6ChansW [] "c".toList false 99).2.2 = true ∧
    (recordChannelGrabResult c6CsW c6ChansW [] "c".toList true 99).2.2 = false :=
  ⟨((c6_channel_failure_tracker c6CsW c6ChansW [] "c".toList 99).2.2.1 (by decide)).2.1,
   (c6_channel_failure_tracker c6CsW c6ChansW [] "c".toList 99).1.2.2⟩

/-! ## C5: idempotent per-source re-ingestion -/

/-- All rows and partial records of the ingest state carry the processed source. -/
def srcInv (url : Str) (st : IngestSt) : Prop :=
  (∀ r ∈ st.programRows, r.source = url) ∧ (∀ r ∈ st.channelRows, r.source = url) ∧
  (∀ p, st.currentProgram = some p → p.source = url) ∧
  (∀ c, st.currentChannel = some c → c.source = url)

theorem srcInv_step (url : Str) (st : IngestSt) (e : XmlEvent) (h : srcInv url st) :
    srcInv url (ingestStep url st e) := by
  obtain ⟨hp, hc, hcp, hcc⟩ := h
  cases e with
  | openTag name attrs =>
    show srcInv url (onOpenTag url st name attrs)
    unfold onOpenTag
    split_ifs with h1 h2 h3
    · exact ⟨hp, hc, hcp, fun c hc' => by cases hc'; rfl⟩
    · exact ⟨hp, hc, fun p hp' => by cases hp'; rfl, hcc⟩
    · cases hch : st.currentChannel with
      | some ch =>
        try simp only [hch]
        refine ⟨hp, hc, hcp, fun c hc' => ?_⟩
        cases hc'
        exact hcc ch hch
      | none =>
        try simp only [hch]
        cases hpr : st.currentProgram with
        | some p =>
          try simp only [hpr]
          refine ⟨hp, hc, fun p' hp' => ?_, fun c hc' => ?_⟩
          · cases hp'; exact hcp p hpr
          · simp at hc'
        | none =>
          try simp only [hpr]
          exact ⟨hp, hc, fun p' hp' => by simp at hp', fun c hc' => by simp at hc'⟩
    · exact ⟨hp, hc, hcp, hcc⟩
  | text t =>
    show srcInv url (onText st t)
    unfold onText
    by_cases h1 : st.currentTag = []
    · rw [if_pos h1]; exact ⟨hp, hc, hcp, hcc⟩
    · rw [if_neg h1]
      by_cases h2 : (st.currentChannel.isSome && decide (st.currentTag = "display-name".toList)) = true
      · rw [if_pos h2]
        cases hch : st.currentChannel with
        | some ch =>
          try simp only [hch]
          exact ⟨hp, hc, hcp, fun c hc' => by
            simp only [Option.some.injEq] at hc'
            subst hc'
            exact hcc ch hch⟩
        | none =>
          try simp only [hch]
          exact ⟨hp, hc, hcp, hcc⟩
      · rw [if_neg h2]
        cases hpr : st.currentProgram with
        | none =>
          try simp only [hpr]
          exact ⟨hp, hc, hcp, hcc⟩
        | some p =>
          try simp only [hpr]
          split_ifs <;>
            first
            | exact ⟨hp, hc, hcp, hcc⟩
            | exact ⟨hp, hc, fun p' hp' => by
                simp only [Option.some.injEq] at hp'
                subst hp'
                exact hcp p hpr, hcc⟩
  | closeTag name =>
    show srcInv url (onCloseTag st name)
    unfold onCloseTag
    split_ifs with h1 h2
    · cases hch : st.currentChannel with
      | some ch =>
        try simp only [hch]
        refine ⟨hp, ?_, hcp, fun c hc' => by simp at hc'⟩
        intro r hr
        rcases List.mem_append.mp hr with hr' | hr'
        · exact hc r hr'
        · rcases List.mem_singleton.mp hr' with rfl
          exact hcc ch hch
      | none =>
        try simp only [hch]
        exact ⟨hp, hc, hcp, hcc⟩
    · cases hpr : st.currentProgram with
      | some p =>
        try simp only [hpr]
        refine ⟨?_, hc, fun p' hp' => by simp at hp', hcc⟩
        intro r hr
        rcases List.mem_append.mp hr with hr' | hr'
        · exact hp r hr'
        · rcases List.mem_singleton.mp hr' with rfl
          exact hcp p hpr
      | none =>
        try simp only [hpr]
        exact ⟨hp, hc, hcp, hcc⟩
    · exact ⟨hp, hc, hcp, hcc⟩

theorem srcInv_foldl (url : Str) (events : List XmlEvent) :
    ∀ st, srcInv url st → srcInv url (events.foldl (ingestStep url) st) := by
  induction events with
  | nil => intro st h; exact h
  | cons e rest ih => intro st h; exact ih _ (srcInv_step url st e h)

theorem srcInv_runIngest (url : Str) (events : List XmlEvent) :
    srcInv url (runIngest url events) := by
  apply srcInv_foldl
  refine ⟨fun _ h => absurd h (List.not_mem_nil _),
    fun _ h => absurd h (List.not_mem_nil _),
    fun _ h => by simp [initIngestSt] at h,
    fun _ h => by simp [initIngestSt] at h⟩

theorem filter_source_self (l : List EpgProgramRow) (url : Str) :
    (l.filter (fun r => r.source ≠ url)).filter (fun r => r.source ≠ url)
      = l.filter (fun r => r.source ≠ url) := by
  induction l with
  | nil => rfl
  | cons r rest ih =>
    by_cases h : r.source = url <;> simp [List.filter, h, ih]

theorem filterC_source_self (l : List EpgChannelRow) (url : Str) :
    (l.filter (fun r => r.source ≠ url)).filter (fun r => r.source ≠ url)
      = l.filter (fun r => r.source ≠ url) := by
  induction l with
  | nil => rfl
  | cons r rest ih =>
    by_cases h : r.source = url <;> simp [List.filter, h, ih]

theorem filter_insertOrIgnore (tbl : List EpgChannelRow) (r : EpgChannelRow) (url : Str)
    (hr : r.source = url) :
    (insertChannelOrIgnore tbl r).filter (fun x => x.source ≠ url)
      = tbl.filter (fun x => x.source ≠ url) := by
  unfold insertChannelOrIgnore
  split
  · rfl
  · simp [List.filter_append, List.filter, hr]

theorem filter_foldl_insert (rows : List EpgChannelRow) (url : Str)
    (h : ∀ r ∈ rows, r.source = url) :
    ∀ tbl : List EpgChannelRow,
      (rows.foldl insertChannelOrIgnore tbl).filter (fun x => x.source ≠ url)
        = tbl.filter (fun x => x.source ≠ url) := by
  induction rows with
  | nil => intro tbl; rfl
  | cons r rest ih =>
    intro tbl
    have := ih (fun x hx => h x (List.mem_cons_of_mem _ hx)) (insertChannelOrIgnore tbl r)
    rw [List.foldl_cons, this, filter_insertOrIgnore tbl r url (h r (List.mem_cons_self _ _))]

/-- C5: re-ingesting the same feed for the same source is idempotent — the
second run deletes exactly the rows the first inserted and re-inserts them,
leaving identical program and channel tables and the identical per-channel
program-count map. -/
theorem c5_reingest_idempotent (db : EpgDb) (url : Str) (events : List XmlEvent) :
    ingestSource (ingestSource db url events).fst url events = ingestSource db url events := by
  have hrows := (srcInv_runIngest url events).1
  have hchans := (srcInv_runIngest url events).2.1
  have hnil : (runIngest url events).programRows.filter (fun r => r.source ≠ url) = [] :=
    List.filter_eq_nil_iff.mpr (fun r hr => by simp [hrows r hr])
  unfold ingestSource
  simp only [Prod.mk.injEq, EpgDb.mk.injEq]
  refine ⟨⟨?_, ?_⟩, trivial⟩
  · rw [filter_foldl_insert (runIngest url events).channelRows url hchans,
        filterC_source_self]
  · rw [List.filter_append, filter_source_self, hnil]
    simp

/-! ## C10: handling of entries with missing required attributes -/

/-- C10 (the claim fails on the code): the programme missing the required
`channel` attribute is not skipped record-by-record — the handlers perform
no validation and batch it, the flush holding it throws `TypeError` on the
`undefined` bind, and the source aborts: the well-formed `Noon Show` entry
of the same batch is not persisted either, only the parse-time counts
remain. -/
theorem c10_malformed_entry_aborts_source :
    processEpgSource { channels := [], programs := [] } "u".toList [c10Feed]
      = ({ channels := [], programs := [] },
         [(none, 1), (some "good.ch".toList, 1)], true) := by
  decide

/-- C10 (amended): for a source whose stream arrives in one chunk and parses
to fewer than 200 programme rows, (i) when every batched row binds, the
source succeeds and commits exactly what `ingestSource` commits — well-formed
feeds are persisted in full; (ii) when some programme row misses a required
attribute, the source aborts and no programme row of the source is
persisted, only the per-source `DELETE` having taken effect; (iii) when some
channel row misses one, the source aborts with both tables holding only the
effect of the per-source `DELETE`s. -/
theorem c10_missing_attribute_aborts_flush (db : EpgDb) (url : Str)
    (evs : List XmlEvent) (hlt : (runIngest url evs).programRows.length < 200) :
    ((runIngest url evs).channelRows.all chanRowOk = true →
      (runIngest url evs).programRows.all progRowOk = true →
      processEpgSource db url [evs]
        = ((ingestSource db url evs).fst, (ingestSource db url evs).snd, false))
    ∧ ((runIngest url evs).programRows.all progRowOk = false →
      (processEpgSource db url [evs]).snd.snd = true
      ∧ (processEpgSource db url [evs]).fst.programs
          = db.programs.filter (fun r => r.source ≠ url))
    ∧ ((runIngest url evs).channelRows.all chanRowOk = false →
      (processEpgSource db url [evs]).snd.snd = true
      ∧ (processEpgSource db url [evs]).fst
          = { channels := db.channels.filter (fun r => r.source ≠ url),
              programs := db.programs.filter (fun r => r.source ≠ url) }) := by
  simp only [runIngest] at hlt
  have hnot : ¬ 200 ≤ (List.foldl (ingestStep url) initIngestSt evs).programRows.length - 0 :=
    by omega
  refine ⟨?_, ?_, ?_⟩
  · intro hch hpr
    simp only [runIngest] at hch hpr
    simp [processEpgSource, processChunks, commitChannels, commitPrograms,
      ingestSource, runIngest, hch, hpr, hnot]
  · intro hpr
    simp only [runIngest] at hpr
    by_cases hch : (List.foldl (ingestStep url) initIngestSt evs).channelRows.all chanRowOk
    · constructor <;>
        simp [processEpgSource, processChunks, commitChannels, commitPrograms,
          hch, hpr, hnot]
    · rw [Bool.not_eq_true] at hch
      constructor <;>
        simp [processEpgSource, processChunks, commitChannels, hch, hnot]
  · intro hch
    simp only [runIngest] at hch
    constructor <;>
      simp [processEpgSource, processChunks, commitChannels, hch, hnot]

/-- Witness for C10 (amended) at the two-programme feed: its programme rows
do not all bind (the first misses `channel`), and by the theorem the source
aborts with no programme row persisted. -/
theorem c10_witness :
    ((runIngest "u".toList c10Feed).programRows.length < 200)
    ∧ (runIngest "u".toList c10Feed).programRows.all progRowOk = false
    ∧ ((processEpgSource { channels := [], programs := [] } "u".toList [c10Feed]).snd.snd = true
      ∧ (processEpgSource { channels := [], programs := [] } "u".toList [c10Feed]).fst.programs
          = List.filter (fun r => r.source ≠ "u".toList) []) :=
  ⟨by decide, by decide,
    (c10_missing_attribute_aborts_flush { channels := [], programs := [] } "u".toList
        c10Feed (by decide)).2.1 (by decide)⟩

/-! ## C4: the tier order of the bulk matching pass -/

/-- C4 (the claim fails on the code): the matching pass has a tier the
claim's list omits.  A channel whose `match_type` contains `IPTV-ORG Map`
keeps its stored (invalid) reference even though the claimed tier order
would give the exact-id match `y`; the claimed six-tier cascade and the
code disagree at this input. -/
theorem c4_iptv_tier_breaks_six_tier_order :
    matchChannelEpg c4Guide none noFuzzy noScoreFmt c4Row
        = (some "x".toList, some "IPTV-ORG Map (Pre-match)".toList) ∧
    specMatchSixTiers c4Guide none noFuzzy noScoreFmt c4Row
        = (some "y".toList, some "ID (Exact)".toList) ∧
    matchChannelEpg c4Guide none noFuzzy noScoreFmt c4Row
        ≠ specMatchSixTiers c4Guide none noFuzzy noScoreFmt c4Row := by
  refine ⟨by decide, by decide, by decide⟩

/-- C4 amended: the pass evaluates seven tiers in fixed order — existing
confirmed match (re-validated), manual override, stored IPTV-ORG-map match
(re-verified if present, otherwise retained as-is), exact id, partial id,
cleaned display name, fuzzy — first hit wins, no further tier is evaluated,
and if no tier hits the stored reference and match type are cleared. -/
theorem c4_seven_tier_order (guide : List GuideChan) (ov : Option Str)
    (fuzzy : Str → List (GuideChan × ℚ)) (fmtScore : ℚ → Str) (row : MatchChannelRow) :
    matchChannelEpg guide ov fuzzy fmtScore row
      = specMatchSevenTiers guide ov fuzzy fmtScore row := by
  unfold matchChannelEpg specMatchSevenTiers firstHit
  simp only [List.foldl, Option.none_orElse]
  cases h1 : tierConfirmed guide row with
  | some r => simp [h1]
  | none =>
    simp only [h1, Option.none_orElse]
    cases h2 : tierOverride guide ov row with
    | some r => simp [h2]
    | none =>
      simp only [h2, Option.none_orElse]
      cases h3 : tierIptvMap guide row with
      | some r => simp [h3]
      | none =>
        simp only [h3, Option.none_orElse]
        cases h4 : tierExactId guide row with
        | some r => simp [h4]
        | none =>
          simp only [h4, Option.none_orElse]
          cases h5 : tierPartialId guide row with
          | some r => simp [h5]
          | none =>
            simp only [h5, Option.none_orElse]
            cases h6 : tierStrictClean guide row with
            | some r => simp [h6]
            | none =>
              simp only [h6, Option.none_orElse]
              cases h7 : tierFuzzy fuzzy fmtScore row with
              | some r => simp [h7]
              | none => simp [h7]

/-! ## C3: confirmed-match retention and override precedence -/

/-- C3 (the claim fails on the code): a confirmed match whose guide channel
is gone from the current guide set IS silently replaced by a weaker-tier
automatic match (here the exact-id tier), with no override involved. -/
theorem c3_confirmed_replaced_when_absent :
    strContains (c3Row.matchType.getD []) "(Confirmed)".toList = true ∧
    c3Row.matchedEpgId = some "x".toList ∧
    matchChannelEpg c3Guide none noFuzzy noScoreFmt c3Row
      = (some "y".toList, some "ID (Exact)".toList) := by
  refine ⟨by decide, by decide, by decide⟩

/-- C3 amended: (i) in the bulk pass a stored match whose guide channel is
still present is retained (up to the `String(...)` coercion the code
applies) — neither an override nor any automatic tier replaces it; (ii) the
pre-match pass retains any stored match unconditionally; (iii) in the bulk
pass a manual override to an existing guide channel wins whenever the
confirmed tier misses; (iv) in the pre-match pass an override wins whenever
the channel has no stored match. -/
theorem c3_confirmed_and_override_precedence
    (guide : List GuideChan) (ov : Option Str)
    (fuzzy : Str → List (GuideChan × ℚ)) (fmtScore : ℚ → Str) (row : MatchChannelRow)
    (overrides : List (Str × Str)) (iptvMap : List IptvMapRow) (pref : Option Str)
    (prow : PreMatchRow) :
    (jsTruthyOpt row.matchedEpgId = true →
      (∃ c ∈ guide, strOfNullable c.id = strOfNullable row.matchedEpgId) →
      strOfNullable (matchChannelEpg guide ov fuzzy fmtScore row).fst
        = strOfNullable row.matchedEpgId) ∧
    (jsTruthyOpt prow.matchedEpgId = true →
      (applyPreMatch overrides iptvMap pref prow).matchedEpgId = prow.matchedEpgId) ∧
    (∀ o, ov = some o → tierConfirmed guide row = none →
      (∃ c ∈ guide, c.id = some o) →
      matchChannelEpg guide ov fuzzy fmtScore row = (some o, some "Manual Override".toList)) ∧
    (∀ o, jsTruthyOpt prow.matchedEpgId = false →
      ((overrides.find? (fun kv => kv.fst = prow.id)).map (fun kv => kv.snd)) = some o →
      o.isEmpty = false →
      (applyPreMatch overrides iptvMap pref prow).matchedEpgId = some o ∧
      (applyPreMatch overrides iptvMap pref prow).matchType = some "Manual Override".toList) := by
  refine ⟨?_, ?_, ?_, ?_⟩
  · intro ht hex
    have hfind : (guide.find? (fun c =>
        strOfNullable c.id = strOfNullable row.matchedEpgId)).isSome := by
      rw [List.find?_isSome]
      rcases hex with ⟨c, hc, hp⟩
      exact ⟨c, hc, by simp [hp]⟩
    rcases Option.isSome_iff_exists.mp hfind with ⟨c0, hc0⟩
    have hp0 : strOfNullable c0.id = strOfNullable row.matchedEpgId := by
      have := List.find?_some hc0
      simpa using this
    have hconf : tierConfirmed guide row
        = some (c0.id,
            some (if strContains (if jsTruthyOpt row.matchType then row.matchType.getD []
                    else "Confirmed Match".toList) "(Confirmed)".toList then
                (if jsTruthyOpt row.matchType then row.matchType.getD []
                  else "Confirmed Match".toList)
              else (if jsTruthyOpt row.matchType then row.matchType.getD []
                    else "Confirmed Match".toList) ++ " (Confirmed)".toList)) := by
      unfold tierConfirmed
      rw [ht]
      simp only [if_true]
      rw [hc0]
    unfold matchChannelEpg
    rw [hconf]
    exact hp0
  · intro ht
    cases hm : prow.matchedEpgId with
    | none => rw [hm] at ht; simp [jsTruthyOpt] at ht
    | some s =>
      have hs : s.isEmpty = false := by
        rw [hm] at ht; simpa [jsTruthyOpt] using ht
      unfold applyPreMatch
      simp [hm, jsTruthyOpt, hs, strOfNullable]
  · intro o ho hconf hex
    have hfind : (guide.find? (fun c => c.id = some o)).isSome := by
      rw [List.find?_isSome]
      rcases hex with ⟨c, hc, hp⟩
      exact ⟨c, hc, by simp [hp]⟩
    rcases Option.isSome_iff_exists.mp hfind with ⟨c0, hc0⟩
    have hp0 : c0.id = some o := by
      have := List.find?_some hc0
      simpa using this
    have hov : tierOverride guide (some o) row
        = some (c0.id, some "Manual Override".toList) := by
      unfold tierOverride
      simp only [hc0]
    unfold matchChannelEpg
    rw [hconf, ho, hov, hp0]
  · intro o hf hov hne
    unfold applyPreMatch
    simp only [hf, Bool.false_eq_true, if_false, hov, hne]
    simp [hne]

/-- Witness for C3: retention of a valid confirmed match and an override
win at concrete inputs. -/
theorem c3_witness :
    strOfNullable (matchChannelEpg c3WGuide none noFuzzy noScoreFmt c3WRow).fst
        = strOfNullable c3WRow.matchedEpgId ∧
    (applyPreMatch c3WOverrides [] none c3WPre).matchedEpgId = some "o1".toList :=
  ⟨(c3_confirmed_and_override_precedence c3WGuide none noFuzzy noScoreFmt c3WRow
      c3WOverrides [] none c3WPre).1 (by decide)
      ⟨{ id := some "m".toList, displayName := some "M Channel".toList }, by decide, by decide⟩,
   ((c3_confirmed_and_override_precedence c3WGuide none noFuzzy noScoreFmt c3WRow
      c3WOverrides [] none c3WPre).2.2.2 "o1".toList (by decide) (by decide) (by decide)).1⟩

/-! ## C8: candidate ranking -/

theorem charEq_of_toNat_eq {a b : Char} (h : a.toNat = b.toNat) : a = b := by
  apply Char.eq_of_val_eq
  apply UInt32.eq_of_toBitVec_eq
  unfold Char.toNat UInt32.toNat at h
  exact BitVec.eq_of_toNat_eq h

theorem strLt_irrefl (x : Str) : strLt x x = false := by
  induction x with
  | nil => rfl
  | cons c cs ih => simp [strLt, ih]

theorem strLt_trans {x y z : Str} (h1 : strLt x y = true) (h2 : strLt y z = true) :
    strLt x z = true := by
  induction x generalizing y z with
  | nil =>
    cases y with
    | nil => cases h1
    | cons b bs =>
      cases z with
      | nil => cases h2
      | cons c cs => rfl
  | cons a as ih =>
    cases y with
    | nil => cases h1
    | cons b bs =>
      cases z with
      | nil => cases h2
      | cons c cs =>
        simp only [strLt, Bool.or_eq_true, Bool.and_eq_true, decide_eq_true_eq] at h1 h2 ⊢
        rcases h1 with h1 | ⟨rfl, h1⟩
        · rcases h2 with h2 | ⟨rfl, h2⟩
          · exact Or.inl (Nat.lt_trans h1 h2)
          · exact Or.inl h1
        · rcases h2 with h2 | ⟨rfl, h2⟩
          · exact Or.inl h2
          · exact Or.inr ⟨rfl, ih h1 h2⟩

theorem strLt_connex (x y : Str) : strLt x y = true ∨ x = y ∨ strLt y x = true := by
  induction x generalizing y with
  | nil =>
    cases y with
    | nil => exact Or.inr (Or.inl rfl)
    | cons b bs => exact Or.inl rfl
  | cons a as ih =>
    cases y with
    | nil => exact Or.inr (Or.inr rfl)
    | cons b bs =>
      rcases Nat.lt_trichotomy a.toNat b.toNat with h | h | h
      · exact Or.inl (by simp [strLt, h])
      · have hab : a = b := charEq_of_toNat_eq h
        subst hab
        rcases ih bs with h' | h' | h'
        · exact Or.inl (by simp [strLt, h'])
        · exact Or.inr (Or.inl (by rw [h']))
        · exact Or.inr (Or.inr (by simp [strLt, h']))
      · exact Or.inr (Or.inr (by simp [strLt, h]))

instance : IsTrans IptvMapRow candLe := by
  constructor
  intro a b c hab hbc
  unfold candLe at *
  simp only [Bool.or_eq_true, Bool.and_eq_true, decide_eq_true_eq] at hab hbc ⊢
  rcases hab with hab | ⟨hab1, hab2⟩
  · rcases hbc with hbc | ⟨hbc1, hbc2⟩
    · exact Or.inl (strLt_trans hab hbc)
    · exact Or.inl (hbc1 ▸ hab)
  · rcases hbc with hbc | ⟨hbc1, hbc2⟩
    · exact Or.inl (hab1 ▸ hbc)
    · refine Or.inr ⟨hab1.trans hbc1, ?_⟩
      rcases hab2 with hab2 | hab2
      · rcases hbc2 with hbc2 | hbc2
        · exact Or.inl (strLt_trans hab2 hbc2)
        · exact Or.inl (hbc2 ▸ hab2)
      · rcases hbc2 with hbc2 | hbc2
        · exact Or.inl (hab2 ▸ hbc2)
        · exact Or.inr (hab2.trans hbc2)

instance : IsTotal IptvMapRow candLe := by
  constructor
  intro a b
  unfold candLe
  simp only [Bool.or_eq_true, Bool.and_eq_true, decide_eq_true_eq]
  rcases strLt_connex a.xmltvId b.xmltvId with h | h | h
  · exact Or.inl (Or.inl h)
  · rcases strLt_connex (strOfNullable a.site) (strOfNullable b.site) with h' | h' | h'
    · exact Or.inl (Or.inr ⟨h, Or.inl h'⟩)
    · exact Or.inl (Or.inr ⟨h, Or.inr h'⟩)
    · exact Or.inr (Or.inr ⟨h.symm, Or.inl h'⟩)
  · exact Or.inr (Or.inl h)

theorem group_go (rows : List IptvMapRow) :
    ∀ (acc : List (Str × List SiteInfo)) (ch : Str),
      (alookup (rows.foldl (fun acc r =>
          if (alookup acc r.xmltvId).isSome then
            aupdate acc r.xmltvId (fun sites => sites ++ [toSiteInfo r])
          else acc ++ [(r.xmltvId, [toSiteInfo r])]) acc) ch).getD []
        = (alookup acc ch).getD []
            ++ ((rows.filter (fun r => r.xmltvId = ch)).map toSiteInfo) := by
  induction rows with
  | nil => intro acc ch; simp
  | cons r rest ih =>
    intro acc ch
    rw [List.foldl_cons, ih]
    have hstep : (alookup (if (alookup acc r.xmltvId).isSome then
          aupdate acc r.xmltvId (fun sites => sites ++ [toSiteInfo r])
        else acc ++ [(r.xmltvId, [toSiteInfo r])]) ch).getD []
        = (alookup acc ch).getD []
            ++ (if r.xmltvId = ch then [toSiteInfo r] else []) := by
      by_cases hch : r.xmltvId = ch
      · subst hch
        by_cases hs : (alookup acc r.xmltvId).isSome
        · rw [if_pos hs, alookup_aupdate_self]
          rcases Option.isSome_iff_exists.mp hs with ⟨v, hv⟩
          simp [hv]
        · rw [if_neg hs]
          have hn : alookup acc r.xmltvId = none := Option.not_isSome_iff_eq_none.mp hs
          rw [alookup_append_right acc r.xmltvId _ hn, hn]
          simp
      · by_cases hs : (alookup acc r.xmltvId).isSome
        · rw [if_pos hs, alookup_aupdate_ne _ _ _ _ (fun hc => hch hc.symm), if_neg hch]
          simp
        · rw [if_neg hs,
              alookup_append_single_ne acc r.xmltvId ch _ (fun hc => hch hc.symm),
              if_neg hch]
          simp
    rw [hstep]
    by_cases hch : r.xmltvId = ch
    · simp [List.filter, hch, List.append_assoc]
    · simp [List.filter, hch]

theorem siteLe_of_candLe {a b : IptvMapRow} (ha : a.xmltvId = b.xmltvId)
    (h : candLe a b) : siteLe a b := by
  unfold candLe at h
  unfold siteLe
  simp only [Bool.or_eq_true, Bool.and_eq_true, decide_eq_true_eq] at h ⊢
  rcases h with h | ⟨-, h⟩
  · rw [ha] at h
    rw [strLt_irrefl] at h
    cases h
  · rcases h with h | h
    · exact Or.inl h
    · exact Or.inr h

/-- C8 amended: the candidate list the orchestrator tries for a channel is
that channel's corpus rows ordered by the query's `ORDER BY xmltv_id, site`
— per channel it is sorted by site name and is a permutation of the
channel's corpus rows in insertion order (it is not the insertion order
itself, and is not re-sorted by success rate). -/
theorem c8_candidates_site_sorted (table : List IptvMapRow) (ids : List Str) (ch : Str) :
    channelCandidates table ids ch
      = ((queryCandidateRows table ids).filter (fun r => r.xmltvId = ch)).map toSiteInfo ∧
    List.Pairwise siteLe ((queryCandidateRows table ids).filter (fun r => r.xmltvId = ch)) ∧
    List.Perm (channelCandidates table ids ch) (specInsertionOrderCandidates table ids ch) := by
  have h1 : channelCandidates table ids ch
      = ((queryCandidateRows table ids).filter (fun r => r.xmltvId = ch)).map toSiteInfo := by
    unfold channelCandidates groupChannelSites
    rw [group_go (queryCandidateRows table ids) [] ch]
    rfl
  refine ⟨h1, ?_, ?_⟩
  · have hsorted : List.Pairwise candLe (queryCandidateRows table ids) :=
      List.sorted_insertionSort candLe _
    have hsub : List.Pairwise candLe
        ((queryCandidateRows table ids).filter (fun r => r.xmltvId = ch)) :=
      hsorted.sublist (List.filter_sublist _)
    refine hsub.imp_of_mem ?_
    intro a b hma hmb hab
    have ha : a.xmltvId = ch := by
      have := (List.mem_filter.mp hma).2
      simpa using this
    have hb : b.xmltvId = ch := by
      have := (List.mem_filter.mp hmb).2
      simpa using this
    exact siteLe_of_candLe (ha.trans hb.symm) hab
  · rw [h1]
    unfold queryCandidateRows specInsertionOrderCandidates
    exact ((List.perm_insertionSort candLe _).filter _).map _

/-- C8 (the claim fails on the code): the candidate query orders by
`(xmltv_id, site)`, so a channel whose mappings were inserted as
`zz.example.com` then `aa.example.com` is tried `aa` first — not in
insertion order. -/
theorem c8_not_insertion_order :
    (channelCandidates c8Table ["c".toList] "c".toList).map (fun s => s.site)
        = ["aa.example.com".toList, "zz.example.com".toList] ∧
    (specInsertionOrderCandidates c8Table ["c".toList] "c".toList).map (fun s => s.site)
        = ["zz.example.com".toList, "aa.example.com".toList] ∧
    channelCandidates c8Table ["c".toList] "c".toList
      ≠ specInsertionOrderCandidates c8Table ["c".toList] "c".toList := by
  refine ⟨by decide, by decide, by decide⟩

theorem shouldSkipSite_congr {m1 m2 : SiteMap} (x : Str) (now : Int)
    (h : siteLookup m1 x = siteLookup m2 x) :
    shouldSkipSite m1 x now = shouldSkipSite m2 x now := by
  unfold shouldSkipSite
  rw [h]

/-- C2: candidates are tried one at a time in order: every candidate whose
grab completes but yields zero programs for the channel gets a failure
grab-log entry and exactly one increment of its consecutive-failure counter
(via `siteFailUpdate`), and the loop advances; the first candidate with a
non-zero program count gets a success grab-log entry, its site health is
marked successful, channel health is marked successful, and the candidates
after it are never tried. -/
theorem c2_candidate_loop (grab : Str → Str → GrabOutcome) (tempPath : Nat → Str)
    (now dur : Int) (xmltvId : Str) (s : SiteInfo) (cnt : Nat) (hcnt : ¬cnt = 0)
    (evsS : List XmlEvent) (hgrabS : grab s.site s.siteId = GrabOutcome.output evsS)
    (hcountS : ∀ db p, countFor (ingestSource db p evsS).snd xmltvId = cnt)
    (post : List SiteInfo) :
    ∀ (pre : List SiteInfo) (st0 : GrabberSt) (i0 : Nat) (err0 : Str),
    ((pre ++ [s]).map (fun t => t.site)).Nodup →
    (∀ t ∈ pre ++ [s], shouldSkipSite st0.siteStatus t.site now = false) →
    (∀ t ∈ pre, ∃ evs, grab t.site t.siteId = GrabOutcome.output evs ∧
        ∀ db p, countFor (ingestSource db p evs).snd xmltvId = 0) →
    ∃ stF, processChannelGo grab tempPath now dur xmltvId st0 i0 err0 (pre ++ s :: post)
        = (stF, true)
      ∧ stF.grabLogs = st0.grabLogs ++ pre.map (zeroProgramLog xmltvId now dur)
          ++ [loadedLog xmltvId now dur s.site cnt]
      ∧ (∀ t ∈ pre, siteLookup stF.siteStatus t.site
          = some (siteFailUpdate now (siteLookup st0.siteStatus t.site)))
      ∧ siteLookup stF.siteStatus s.site
          = some { lastAttempt := now, lastSuccess := some now, failureCount := 0 }
      ∧ chanLookup stF.chanStatus xmltvId
          = some (chanSuccessUpdate now (chanLookup st0.chanStatus xmltvId))
      ∧ stF.channels = st0.channels
      ∧ stF.overrides = st0.overrides
      ∧ (∀ x, x ∉ (pre ++ [s]).map (fun t => t.site) →
          siteLookup stF.siteStatus x = siteLookup st0.siteStatus x) := by
  intro pre
  induction pre with
  | nil =>
    intro st0 i0 err0 hnodup hnoskip hzero
    have hns : shouldSkipSite st0.siteStatus s.site now = false :=
      hnoskip s (by simp)
    simp only [List.nil_append]
    simp only [processChannelGo, hns, Bool.false_eq_true, if_false, hgrabS, hcountS,
      if_neg hcnt]
    simp only [recordGrabLog]
    refine ⟨_, rfl, ?_, ?_, ?_, ?_, rfl, rfl, ?_⟩
    · simp [loadedLog]
    · intro t ht; cases ht
    · show siteLookup (recordSiteAttempt st0.siteStatus s.site true now) s.site = _
      unfold recordSiteAttempt
      rw [if_pos rfl]
      show alookup (aupsert st0.siteStatus s.site (siteSuccessUpdate now)) s.site = _
      rw [alookup_aupsert_self]
      rfl
    · show chanLookup (recordChannelGrabResult st0.chanStatus st0.channels st0.overrides
          xmltvId true now).fst xmltvId = _
      show alookup (aupsert st0.chanStatus xmltvId (chanSuccessUpdate now)) xmltvId = _
      rw [alookup_aupsert_self]
      rfl
    · intro x hx
      simp only [List.nil_append, List.map, List.mem_singleton] at hx
      show siteLookup (recordSiteAttempt st0.siteStatus s.site true now) x = _
      unfold recordSiteAttempt
      rw [if_pos rfl]
      show alookup (aupsert st0.siteStatus s.site (siteSuccessUpdate now)) x = _
      rw [alookup_aupsert_ne _ _ _ _ (by simpa using hx)]
      rfl
  | cons t pre' ih =>
    intro st0 i0 err0 hnodup hnoskip hzero
    have hts : shouldSkipSite st0.siteStatus t.site now = false := hnoskip t (by simp)
    rcases hzero t (by simp) with ⟨evsT, hgrabT, hcountT⟩
    simp only [List.cons_append]
    simp only [processChannelGo, hts, Bool.false_eq_true, if_false, hgrabT, hcountT,
      recordGrabLog]
    simp only [if_true]
    have htne : t.site ∉ List.map (fun u => u.site) (pre' ++ [s]) :=
      (List.nodup_cons.mp (by simpa using hnodup)).1
    have hnodup' : (List.map (fun u => u.site) (pre' ++ [s])).Nodup :=
      (List.nodup_cons.mp (by simpa using hnodup)).2
    have hlookne : ∀ x, x ≠ t.site →
        siteLookup (recordSiteAttempt st0.siteStatus t.site false now) x
          = siteLookup st0.siteStatus x := by
      intro x hx
      show alookup (aupsert st0.siteStatus t.site (siteFailUpdate now)) x = _
      rw [alookup_aupsert_ne _ _ _ _ hx]
      rfl
    have hnoskip' : ∀ u ∈ pre' ++ [s],
        shouldSkipSite (recordSiteAttempt st0.siteStatus t.site false now) u.site now
          = false := by
      intro u hu
      have hne : u.site ≠ t.site := fun hc => htne (hc ▸ List.mem_map_of_mem _ hu)
      rw [shouldSkipSite_congr u.site now (hlookne u.site hne)]
      exact hnoskip u (List.mem_cons_of_mem _ hu)
    have hzero' : ∀ u ∈ pre', ∃ evs, grab u.site u.siteId = GrabOutcome.output evs ∧
        ∀ db p, countFor (ingestSource db p evs).snd xmltvId = 0 :=
      fun u hu => hzero u (List.mem_cons_of_mem _ hu)
    obtain ⟨stF, heq, hlogs, hpreF, hsF, hchanF, hchansF, hovF, huntF⟩ :=
      ih { db := (ingestSource (purgeGrabbed st0.db xmltvId) (tempPath i0) evsT).1,
           siteStatus := recordSiteAttempt st0.siteStatus t.site false now,
           chanStatus := st0.chanStatus, channels := st0.channels,
           overrides := st0.overrides,
           grabLogs := st0.grabLogs ++
             [{ xmltvId := xmltvId, site := t.site, timestamp := now, success := false,
                message := "Site returned 0 programs, trying next".toList,
                programCount := 0, durationMs := dur }] }
        (i0 + 1) (t.site ++ " returned 0 programs".toList) hnodup' hnoskip' hzero'
    refine ⟨stF, heq, ?_, ?_, hsF, hchanF, hchansF, hovF, ?_⟩
    · rw [hlogs]
      simp [zeroProgramLog, List.append_assoc]
    · intro u hu
      rcases List.mem_cons.mp hu with rfl | hu'
      · rw [huntF u.site htne]
        show alookup (aupsert st0.siteStatus u.site (siteFailUpdate now)) u.site = _
        rw [alookup_aupsert_self]
        rfl
      · have hne : u.site ≠ t.site :=
          fun hc => htne (hc ▸ List.mem_map_of_mem _ (List.mem_append_left _ hu'))
        rw [hpreF u hu', hlookne u.site hne]
    · intro x hx
      have hx1 : x ≠ t.site := by
        intro hc
        exact hx (by simp [hc])
      have hx2 : x ∉ List.map (fun u => u.site) (pre' ++ [s]) := fun hc =>
        hx (by simp only [List.map_cons]; exact List.mem_cons_of_mem _ hc)
      rw [huntF x hx2, hlookne x hx1]

/-- Witness for C2 at the spec scenario: two candidates, the first returns
zero programs and the second 12; the run succeeds with a failure log for
the first site (counter 1) and a success log for the second only. -/
theorem c2_witness :
    ∃ stF, processChannelGo c2Grab c2TempPath 5 7 "c".toList emptyGrabberSt 0 []
        [c2SiteA, c2SiteB] = (stF, true)
      ∧ stF.grabLogs = [zeroProgramLog "c".toList 5 7 c2SiteA,
          loadedLog "c".toList 5 7 c2SiteB.site 12]
      ∧ siteLookup stF.siteStatus c2SiteA.site
          = some { lastAttempt := 5, lastSuccess := none, failureCount := 1 } := by
  obtain ⟨stF, heq, hlogs, hpre, hs, hrest⟩ :=
    c2_candidate_loop c2Grab c2TempPath 5 7 "c".toList c2SiteB 12 (by decide)
      (c2FeedN 12) rfl (fun db p => rfl) [] [c2SiteA] emptyGrabberSt 0 []
      (by decide) (by decide)
      (fun t ht => by
        rcases List.mem_singleton.mp ht with rfl
        exact ⟨[], rfl, fun db p => rfl⟩)
  refine ⟨stF, heq, ?_, ?_⟩
  · rw [hlogs]
    rfl
  · rw [hpre c2SiteA (List.mem_singleton.mpr rfl)]
    rfl

theorem map_fixed (f : Char → Char) : ∀ (l : Str), (∀ a ∈ l, f a = a) → l.map f = l := by
  intro l
  induction l with
  | nil => intro _; rfl
  | cons a as ih =>
    intro h
    simp only [List.map_cons, h a (List.mem_cons_self _ _),
      ih (fun b hb => h b (List.mem_cons_of_mem _ hb))]

theorem contains_eq_false_of_not_mem : ∀ (l : Str) (a : Char), a ∉ l → l.contains a = false := by
  intro l a h
  simpa using h

theorem colonShowName_fixed (s : Str) (h : ':' ∉ s) : colonShowName s = s := by
  unfold colonShowName
  rw [contains_eq_false_of_not_mem s ':' h]
  simp

theorem lowerChar_cases (c : Char) :
    lowerChar c ∈ ['a','b','c','d','e','f','g','h','i','j','k','l','m',
      'n','o','p','q','r','s','t','u','v','w','x','y','z'] ∨ lowerChar c = c := by
  unfold lowerChar
  split
  all_goals first | (left; decide) | (right; rfl)

theorem lowerChar_idem (c : Char) : lowerChar (lowerChar c) = lowerChar c := by
  rcases lowerChar_cases c with h | h
  · have hall : ∀ d ∈ ['a','b','c','d','e','f','g','h','i','j','k','l','m',
        'n','o','p','q','r','s','t','u','v','w','x','y','z'], lowerChar d = d := by decide
    exact hall _ h
  · rw [h]
    exact h

theorem mem_collapseGo {c : Char} : ∀ (u : Str) (b : Bool), c ∈ collapseGo b u → c = ' ' ∨ c ∈ u := by
  intro u
  induction u with
  | nil => intro b h; simp [collapseGo] at h
  | cons a as ih =>
    intro b h
    by_cases ha : jsWs a
    · simp only [collapseGo, ha, if_true] at h
      cases b with
      | true =>
        rcases ih true h with h1 | h1
        · exact Or.inl h1
        · exact Or.inr (List.mem_cons_of_mem _ h1)
      | false =>
        rcases List.mem_cons.mp h with rfl | h1
        · exact Or.inl rfl
        · rcases ih true h1 with h2 | h2
          · exact Or.inl h2
          · exact Or.inr (List.mem_cons_of_mem _ h2)
    · simp only [collapseGo, ha, if_false] at h
      rcases List.mem_cons.mp h with rfl | h1
      · exact Or.inr (List.mem_cons.mpr (Or.inl rfl))
      · rcases ih false h1 with h2 | h2
        · exact Or.inl h2
        · exact Or.inr (List.mem_cons_of_mem _ h2)

theorem wsSpace_collapseGo {c : Char} : ∀ (u : Str) (b : Bool),
    c ∈ collapseGo b u → jsWs c = true → c = ' ' := by
  intro u
  induction u with
  | nil => intro b h; simp [collapseGo] at h
  | cons a as ih =>
    intro b h hc
    by_cases ha : jsWs a
    · simp only [collapseGo, ha, if_true] at h
      cases b with
      | true => exact ih true h hc
      | false =>
        rcases List.mem_cons.mp h with rfl | h1
        · rfl
        · exact ih true h1 hc
    · simp only [collapseGo, ha, if_false] at h
      rcases List.mem_cons.mp h with rfl | h1
      · exact absurd hc (by simpa using ha)
      · exact ih false h1 hc

theorem chain_collapseGo : ∀ (u : Str),
    (∀ b, List.Chain' (fun a c => ¬(jsWs a = true ∧ jsWs c = true)) (collapseGo b u))
      ∧ (∀ c, (collapseGo true u).head? = some c → jsWs c = false) := by
  intro u
  induction u with
  | nil => exact ⟨fun b => by simp [collapseGo], fun c h => by simp [collapseGo] at h⟩
  | cons a as ih =>
    by_cases ha : jsWs a
    · constructor
      · intro b
        cases b with
        | true => simpa [collapseGo, ha] using ih.1 true
        | false =>
          simp only [collapseGo, ha, if_true, Bool.false_eq_true, if_false]
          rw [List.chain'_cons']
          refine ⟨fun c hc => ?_, ih.1 true⟩
          have hcf := ih.2 c (Option.mem_def.mp hc)
          simp [hcf]
      · intro c hc
        simp only [collapseGo, ha, if_true] at hc
        exact ih.2 c hc
    · constructor
      · intro b
        simp only [collapseGo, Bool.not_eq_true] at ha ⊢
        simp only [ha, Bool.false_eq_true, if_false]
        rw [List.chain'_cons']
        refine ⟨fun c hc => ?_, ih.1 false⟩
        intro hcontra
        exact absurd hcontra.1 (by simpa using ha)
      · intro c hc
        simp only [collapseGo, Bool.not_eq_true] at ha hc
        simp only [ha, Bool.false_eq_true, if_false, List.head?_cons,
          Option.some.injEq] at hc
        subst hc
        exact ha

theorem head_dropWhile (p : Char → Bool) : ∀ (l : Str) (c : Char),
    (l.dropWhile p).head? = some c → p c = false := by
  intro l
  induction l with
  | nil => intro c h; simp at h
  | cons a as ih =>
    intro c h
    by_cases ha : p a
    · rw [List.dropWhile_cons_of_pos ha] at h
      exact ih c h
    · rw [List.dropWhile_cons_of_neg ha] at h
      simp only [List.head?_cons, Option.some.injEq] at h
      subst h
      simpa using ha

theorem dropWhile_eq_self_of_head (p : Char → Bool) (l : Str)
    (h : ∀ c, l.head? = some c → p c = false) : l.dropWhile p = l := by
  cases l with
  | nil => rfl
  | cons a as =>
    have := h a rfl
    rw [List.dropWhile_cons_of_neg (by simp [this])]

theorem mem_dropWhile (p : Char → Bool) (l : Str) (c : Char)
    (h : c ∈ l.dropWhile p) : c ∈ l :=
  (List.dropWhile_sublist p).subset h

theorem chain_dropWhile (R : Char → Char → Prop) (p : Char → Bool) : ∀ (l : Str),
    List.Chain' R l → List.Chain' R (l.dropWhile p) := by
  intro l
  induction l with
  | nil => intro h; exact h
  | cons a as ih =>
    intro h
    by_cases ha : p a
    · rw [List.dropWhile_cons_of_pos ha]
      exact ih h.tail
    · rw [List.dropWhile_cons_of_neg ha]
      exact h

theorem chain_reverse_symm (p : Char → Bool) (l : Str)
    (h : List.Chain' (fun a c => ¬(p a = true ∧ p c = true)) l) :
    List.Chain' (fun a c => ¬(p a = true ∧ p c = true)) l.reverse := by
  rw [List.chain'_reverse]
  exact h.imp (fun a c hac => fun hcon => hac ⟨hcon.2, hcon.1⟩)

theorem getLast_dropWhile (p : Char → Bool) : ∀ (l : Str),
    l.dropWhile p ≠ [] → (l.dropWhile p).getLast? = l.getLast? := by
  intro l
  induction l with
  | nil => intro h; simp at h
  | cons a as ih =>
    intro h
    by_cases ha : p a
    · rw [List.dropWhile_cons_of_pos ha] at h ⊢
      have has : as ≠ [] := by
        intro hc
        subst hc
        simp at h
      obtain ⟨b, bs, rfl⟩ : ∃ b bs, as = b :: bs := by
        cases as with
        | nil => exact absurd rfl has
        | cons b bs => exact ⟨b, bs, rfl⟩
      rw [ih h, List.getLast?_cons_cons]
    · rw [List.dropWhile_cons_of_neg ha]

theorem collapseGo_fixed : ∀ (w : Str),
    (∀ c ∈ w, jsWs c = true → c = ' ') →
    List.Chain' (fun a c => ¬(jsWs a = true ∧ jsWs c = true)) w →
    collapseGo false w = w
      ∧ ((∀ c, w.head? = some c → jsWs c = false) → collapseGo true w = w) := by
  intro w
  induction w with
  | nil => intro _ _; exact ⟨rfl, fun _ => rfl⟩
  | cons a as ih =>
    intro hws hch
    have hch' := List.chain'_cons'.mp hch
    have ih' := ih (fun c hc hw => hws c (List.mem_cons_of_mem _ hc) hw) hch'.2
    by_cases ha : jsWs a
    · have haSp : a = ' ' := hws a (List.mem_cons_self _ _) ha
      constructor
      · simp only [collapseGo, ha, if_true, Bool.false_eq_true, if_false]
        have hhead : ∀ c, as.head? = some c → jsWs c = false := by
          intro c hc
          have hr := hch'.1 c (Option.mem_def.mpr hc)
          by_contra hcf
          exact hr ⟨ha, by simpa using hcf⟩
        rw [ih'.2 hhead, haSp]
      · intro hhf
        exact absurd (hhf a rfl) (by simp [ha])
    · have hgo : ∀ b, collapseGo b (a :: as) = a :: collapseGo false as := by
        intro b
        simp only [Bool.not_eq_true] at ha
        simp [collapseGo, ha]
      constructor
      · rw [hgo false, ih'.1]
      · intro _
        rw [hgo true, ih'.1]

theorem jsTrim_eq_self (w : Str)
    (hh : ∀ c, w.head? = some c → jsWs c = false)
    (hl : ∀ c, w.reverse.head? = some c → jsWs c = false) :
    jsTrim w = w := by
  unfold jsTrim
  rw [dropWhile_eq_self_of_head jsWs w hh, dropWhile_eq_self_of_head jsWs w.reverse hl,
    List.reverse_reverse]

theorem trim_fixed_parts (v : Str)
    (hvw : ∀ c ∈ v, jsWs c = true → c = ' ')
    (hvch : List.Chain' (fun a c => ¬(jsWs a = true ∧ jsWs c = true)) v) :
    collapseWs (jsTrim v) = jsTrim v ∧ jsTrim (jsTrim v) = jsTrim v := by
  have hx : jsTrim v = ((v.dropWhile jsWs).reverse.dropWhile jsWs).reverse := rfl
  have hmem : ∀ c ∈ jsTrim v, c ∈ v := by
    intro c hc
    rw [hx, List.mem_reverse] at hc
    have h1 := mem_dropWhile jsWs _ c hc
    rw [List.mem_reverse] at h1
    exact mem_dropWhile jsWs v c h1
  have hwWs : ∀ c ∈ jsTrim v, jsWs c = true → c = ' ' := fun c hc => hvw c (hmem c hc)
  have hch2 : List.Chain' (fun a c => ¬(jsWs a = true ∧ jsWs c = true)) (jsTrim v) := by
    rw [hx]
    exact chain_reverse_symm jsWs _ (chain_dropWhile _ jsWs _
      (chain_reverse_symm jsWs _ (chain_dropWhile _ jsWs v hvch)))
  have hhead : ∀ c, (jsTrim v).head? = some c → jsWs c = false := by
    intro c hc
    rw [hx, List.head?_reverse] at hc
    have hyne : (v.dropWhile jsWs).reverse.dropWhile jsWs ≠ [] := by
      intro h0
      rw [h0] at hc
      simp at hc
    rw [getLast_dropWhile jsWs _ hyne, List.getLast?_reverse] at hc
    exact head_dropWhile jsWs v c hc
  have hlast : ∀ c, (jsTrim v).reverse.head? = some c → jsWs c = false := by
    intro c hc
    rw [hx, List.reverse_reverse] at hc
    exact head_dropWhile jsWs _ c hc
  exact ⟨(collapseGo_fixed (jsTrim v) hwWs hch2).1, jsTrim_eq_self (jsTrim v) hhead hlast⟩

theorem trim_collapse_stable (u : Str) :
    jsTrim (collapseWs (jsTrim (collapseWs u))) = jsTrim (collapseWs u) := by
  have h := trim_fixed_parts (collapseWs u)
    (fun c hc => wsSpace_collapseGo u false hc)
    ((chain_collapseGo u).1 false)
  rw [h.1, h.2]

theorem mem_jsTrim (l : Str) (c : Char) (h : c ∈ jsTrim l) : c ∈ l := by
  unfold jsTrim at h
  rw [List.mem_reverse] at h
  have h1 := mem_dropWhile jsWs _ c h
  rw [List.mem_reverse] at h1
  exact mem_dropWhile jsWs l c h1

theorem mem_punctToSpace (l : Str) (c : Char) (h : c ∈ punctToSpace l) :
    isTitleKeep c = true ∧ (c = ' ' ∨ c ∈ l) := by
  rcases List.mem_map.mp h with ⟨a, ha, hfa⟩
  by_cases hk : isTitleKeep a
  · rw [if_pos hk] at hfa
    subst hfa
    exact ⟨hk, Or.inr ha⟩
  · rw [if_neg hk] at hfa
    subst hfa
    exact ⟨by decide, Or.inl rfl⟩

theorem mem_lowerStr_fixed (l : Str) (c : Char) (h : c ∈ lowerStr l) : lowerChar c = c := by
  rcases List.mem_map.mp h with ⟨a, _, rfl⟩
  exact lowerChar_idem a

theorem mem_removals (l : Str) (c : Char)
    (h : c ∈ removeYears (removeEpisodeNum (removeSeason (removeMarker
      (removeQuality l))))) : c ∈ l :=
  mem_of_mem_scanGo _ 0 none _ c (mem_of_mem_scanGo _ 0 none _ c
    (mem_of_mem_scanGo _ 0 none _ c (mem_of_mem_scanGo _ 0 none _ c
      (mem_of_mem_scanGo _ 0 none _ c h))))

theorem mem_normalizeTitle (t : Str) (c : Char) (hc : c ∈ normalizeTitle t) :
    isTitleKeep c = true ∧ lowerChar c = c := by
  have h1 := mem_jsTrim _ c hc
  rcases mem_collapseGo _ false h1 with rfl | h2
  · exact ⟨by decide, by decide⟩
  · obtain ⟨hk, hco⟩ := mem_punctToSpace _ c h2
    refine ⟨hk, ?_⟩
    rcases hco with rfl | h3
    · rfl
    · exact mem_lowerStr_fixed _ c (mem_removals _ c h3)

/-- C9 counterexample: `normalizeTitle` is not idempotent. Year removal in
the first pass merges the remaining characters of `h(2016)d` into the token
`hd`, which the quality stage of the second pass then deletes, so the second
normalization differs from the first. -/
theorem c9_not_idempotent :
    ¬ normalizeTitle (normalizeTitle "h(2016)d".toList)
        = normalizeTitle "h(2016)d".toList := by decide

/-- C9 (amended): `normalizeTitle` is idempotent on every title whose
normalization is left unchanged by the five removal stages (quality tokens,
episode markers, season, episode number, years). For such titles the second
pass is inert stage by stage: the output contains no colon, is already
lowercase, the removals fix it by hypothesis, every character survives the
punctuation filter, and whitespace is already collapsed and trimmed. -/
theorem c9_idempotent_of_removals_fixed (t : Str)
    (h : removeYears (removeEpisodeNum (removeSeason (removeMarker (removeQuality
      (normalizeTitle t))))) = normalizeTitle t) :
    normalizeTitle (normalizeTitle t) = normalizeTitle t := by
  have hmem := mem_normalizeTitle t
  have hcolon : colonShowName (normalizeTitle t) = normalizeTitle t := by
    apply colonShowName_fixed
    intro hmemc
    exact absurd (hmem ':' hmemc).1 (by decide)
  have hlow : lowerStr (normalizeTitle t) = normalizeTitle t :=
    map_fixed lowerChar _ (fun a ha => (hmem a ha).2)
  have hpunct : punctToSpace (normalizeTitle t) = normalizeTitle t :=
    map_fixed _ _ (fun a ha => by rw [if_pos ((hmem a ha).1)])
  show jsTrim (collapseWs (punctToSpace (removeYears (removeEpisodeNum (removeSeason
    (removeMarker (removeQuality (lowerStr (colonShowName (normalizeTitle t)))))))))) =
    normalizeTitle t
  rw [hcolon, hlow, h, hpunct]
  exact trim_collapse_stable _

/-- Witness for C9 (amended) at the title `Breaking Bad`: the removal stages
fix its normalization, hence normalizing twice equals normalizing once. -/
theorem c9_witness :
    (removeYears (removeEpisodeNum (removeSeason (removeMarker (removeQuality
      (normalizeTitle "Breaking Bad".toList))))) = normalizeTitle "Breaking Bad".toList)
    ∧ normalizeTitle (normalizeTitle "Breaking Bad".toList)
        = normalizeTitle "Breaking Bad".toList :=
  ⟨by decide, c9_idempotent_of_removals_fixed "Breaking Bad".toList (by decide)⟩
